import Mathlib

/-!
Verification development for the decision core of the game AI in
`AIEldar.cc`.  Every definition below is a shallow embedding of the
corresponding C++ entity; line numbers in comments refer to `src/AIEldar.cc`.

Machine-integer conventions:
* C++ `int` is modelled as `Int` (all values occurring stay far from 2^31,
  except where `INT_MIN` is used explicitly as a sentinel, which we model
  by the literal -2147483648);
* C++ `unsigned short int` (the distance matrices) is modelled as `Nat`
  with explicit wrap-around `mod 65536` via `ushortAdd`, because the
  source adds signed penalties to unsigned shorts;
* C++ integer division truncates toward zero, which is `Int.tdiv`.
-/

namespace Eldar

/-! ### Board element codes (AIEldar.cc lines 50-62) -/

def BAZOOKA : Int := 6
def GUN : Int := 5
def HAMMER : Int := 4
def BUILDER : Int := 3
def FOOD : Int := 2
def MONEY : Int := 1
def EMPTY : Int := 0
def FRIENDLY_CITIZEN : Int := -1
def WALL : Int := -2
def ENEMY_BUILDER : Int := -3
def ENEMY_HAMMER : Int := -4
def ENEMY_GUN : Int := -5
def ENEMY_BAZOOKA : Int := -6

/-! ### Instruction priorities (lines 91-95) -/

def NOT_IMPORTANT : Int := -1
def BUILD_PRIORITY : Int := 0
def RUN_PRIORITY : Int := 15
def RUN_DEATH_PRIORITY : Int := 20
def VERY_HIGH_PRIORITY : Int := 500

/-! ### Profit constants (lines 134-152) -/

def MONEY_PROFIT : Int := 12
def HEALTH_PROFIT : Int := 17
def ABOUT_TO_DIE_BONUS : Int := 5
def ATTACK_PROFIT : Int := 19
def WEAPON_PROFIT : Int := 25
def STEAL_WEAPON_PROFIT : Int := 12
def BAZOOKA_EXTRA_PROFIT : Int := 3
def WARRIOR_EXTRA_PROFIT : Int := 3
def BARRICADE_THRESHOLD : Int := 2
def BARRICADE_INTERRUPT_THRESHOLD : Int := 5
def PERCENT_BUILD : Int := 70
def COST_WALK_INTO_FRIENDLY : Int := 3

/-- C limits.h INT_MIN, the sentinel used for best_profit and thresholds. -/
def INT_MIN : Int := -2147483648

/-! ### Directions and positions.  The host's `Dir` type; the iteration
order `Directions = {Up, Down, Left, Right}` is the one fixed at line 47. -/

inductive Dir : Type
  | Up : Dir
  | Down : Dir
  | Left : Dir
  | Right : Dir
deriving DecidableEq, Repr

abbrev Pos : Type := Int × Int

/-- Position shift `p + d` of the host API. -/
def shift : Pos → Dir → Pos
  | (i, j), Dir.Up => (i - 1, j)
  | (i, j), Dir.Down => (i + 1, j)
  | (i, j), Dir.Left => (i, j - 1)
  | (i, j), Dir.Right => (i, j + 1)

/-- The direction list of line 47, in source order. -/
def Directions : List Dir := [Dir.Up, Dir.Down, Dir.Left, Dir.Right]

/-! ### The instruction buffer (lines 78-98 and the flush loop at 789-794).

`Instr` mirrors the C++ struct; `instrLT` is its `operator<`.  The C++
`std::priority_queue<Instr>` repeatedly pops a greatest element w.r.t.
`operator<`; `flushOrder` models the end-of-round flush as that repeated
extraction.  Among elements equivalent under the comparator the C++ heap
order is unspecified; the model deterministically keeps the
earliest-inserted, which is irrelevant once the comparator keys
`(priority, id)` are pairwise distinct, as proved below. -/

structure Instr where
  priority : Int
  is_build : Bool
  id : Int
  dir : Dir
deriving DecidableEq, Repr

/-- The C++ `Instr::operator<` (lines 84-87). -/
def instrLT (a b : Instr) : Bool :=
  if a.priority = b.priority then decide (a.id < b.id)
  else decide (a.priority < b.priority)

/-- Extract a greatest element (w.r.t. `instrLT`) from a nonempty buffer,
returning it together with the remaining elements. -/
def popMax : Instr → List Instr → Instr × List Instr
  | a, [] => (a, [])
  | a, b :: l =>
    if instrLT a (popMax b l).1 then ((popMax b l).1, a :: (popMax b l).2)
    else (a, b :: l)

/-- The end-of-round flush (lines 789-794): repeatedly pop the greatest
instruction until the buffer is empty.  The fuel is the list length. -/
def flushList : Nat → List Instr → List Instr
  | 0, _ => []
  | _ + 1, [] => []
  | fuel + 1, a :: l =>
    (popMax a l).1 :: flushList fuel (popMax a l).2

def flushOrder (l : List Instr) : List Instr :=
  flushList l.length l

/-! Basic order facts about `instrLT`. -/

lemma instrLT_iff (a b : Instr) :
    instrLT a b = true ↔
      (a.priority < b.priority ∨ (a.priority = b.priority ∧ a.id < b.id)) := by
  unfold instrLT
  by_cases hp : a.priority = b.priority
  · simp [hp]
  · simp [hp]

lemma instrLT_asymm {a b : Instr} (h : instrLT a b = true) : instrLT b a = false := by
  rw [instrLT_iff] at h
  rw [← Bool.not_eq_true, instrLT_iff]
  omega

lemma instrLT_trans {a b c : Instr} (h1 : instrLT a b = true) (h2 : instrLT b c = true) :
    instrLT a c = true := by
  rw [instrLT_iff] at h1 h2 ⊢
  omega

/-- If neither element beats the other, their comparator keys agree. -/
lemma instrLT_connect {a b : Instr} (h1 : instrLT a b = false) (h2 : instrLT b a = false) :
    a.priority = b.priority ∧ a.id = b.id := by
  rw [← Bool.not_eq_true, instrLT_iff] at h1 h2
  omega

/-! Properties of `popMax`. -/

lemma popMax_perm (a : Instr) (l : List Instr) :
    List.Perm ((popMax a l).1 :: (popMax a l).2) (a :: l) := by
  induction l generalizing a with
  | nil => simp [popMax]
  | cons b t ih =>
    unfold popMax
    by_cases h : instrLT a (popMax b t).1 = true
    · simp only [if_pos h]
      exact ((List.Perm.swap a (popMax b t).1 (popMax b t).2).trans
        (List.Perm.cons a (ih b)))
    · simp only [if_neg h]
      exact List.Perm.refl _

lemma popMax_max (a : Instr) (l : List Instr) :
    ∀ x ∈ a :: l, instrLT (popMax a l).1 x = false := by
  induction l generalizing a with
  | nil =>
    intro x hx
    have hxa : x = a := by simpa using hx
    rw [hxa]
    show instrLT a a = false
    rw [← Bool.not_eq_true, instrLT_iff]
    omega
  | cons b t ih =>
    intro x hx
    unfold popMax
    by_cases h : instrLT a (popMax b t).1 = true
    · simp only [if_pos h]
      rcases List.mem_cons.mp hx with hxa | hxbt
      · subst hxa
        exact instrLT_asymm h
      · exact ih b x hxbt
    · simp only [if_neg h]
      rcases List.mem_cons.mp hx with hxa | hxbt
      · subst hxa
        rw [← Bool.not_eq_true, instrLT_iff]
        omega
      · have hmx := ih b x hxbt
        have h2 : instrLT a (popMax b t).1 = false := by
          rw [← Bool.not_eq_true]
          exact h
        by_contra hax
        rw [Bool.not_eq_false] at hax
        by_cases hxm : instrLT x (popMax b t).1 = true
        · have := instrLT_trans hax hxm
          rw [this] at h2
          exact Bool.true_eq_false.mp h2
        · have hxm2 : instrLT x (popMax b t).1 = false := by
            rw [← Bool.not_eq_true]
            exact hxm
          have hkey := instrLT_connect hxm2 hmx
          have heq : instrLT a x = instrLT a (popMax b t).1 := by
            unfold instrLT
            rw [hkey.1, hkey.2]
          rw [hax, h2] at heq
          exact Bool.true_eq_false.mp heq

lemma popMax_length (a : Instr) (l : List Instr) :
    (popMax a l).2.length = l.length := by
  induction l generalizing a with
  | nil => simp [popMax]
  | cons b t ih =>
    unfold popMax
    by_cases h : instrLT a (popMax b t).1 = true
    · simp [if_pos h, ih b]
    · simp [if_neg h]

/-! Properties of the flush. -/

lemma flushList_perm : ∀ (fuel : Nat) (l : List Instr), l.length ≤ fuel →
    List.Perm (flushList fuel l) l := by
  intro fuel
  induction fuel with
  | zero =>
    intro l hl
    have : l = [] := List.length_eq_zero.mp (Nat.le_zero.mp hl)
    subst this
    simp [flushList]
  | succ n ih =>
    intro l hl
    cases l with
    | nil => simp [flushList]
    | cons a t =>
      show List.Perm ((popMax a t).1 :: flushList n (popMax a t).2) (a :: t)
      have hlen : (popMax a t).2.length ≤ n := by
        rw [popMax_length]
        simpa using hl
      exact (List.Perm.cons (popMax a t).1 (ih (popMax a t).2 hlen)).trans
        (popMax_perm a t)

/-- The relation in which the flush output is sorted: each element strictly
beats all later ones under the C++ comparator (priority descending, then
unit id descending). -/
def flushGE (a b : Instr) : Prop := instrLT b a = true

lemma flushList_sorted : ∀ (fuel : Nat) (l : List Instr), l.length ≤ fuel →
    l.Pairwise (fun a b => a.id ≠ b.id) →
    List.Sorted flushGE (flushList fuel l) := by
  intro fuel
  induction fuel with
  | zero =>
    intro l hl _
    have : l = [] := List.length_eq_zero.mp (Nat.le_zero.mp hl)
    subst this
    simp [flushList]
  | succ n ih =>
    intro l hl hdist
    cases l with
    | nil => simp [flushList]
    | cons a t =>
      show List.Sorted flushGE ((popMax a t).1 :: flushList n (popMax a t).2)
      have hlen : (popMax a t).2.length ≤ n := by
        rw [popMax_length]
        simpa using hl
      have hperm := popMax_perm a t
      have hdist2 : ((popMax a t).1 :: (popMax a t).2).Pairwise
          (fun a b => a.id ≠ b.id) :=
        (hperm.pairwise_iff (fun h hh => h hh.symm)).mpr hdist
      have hdistRest := (List.pairwise_cons.mp hdist2).2
      have hmaxids := (List.pairwise_cons.mp hdist2).1
      rw [List.sorted_cons]
      constructor
      · intro b hb
        have hbmem : b ∈ (popMax a t).2 := (flushList_perm n _ hlen).mem_iff.mp hb
        have hbl : b ∈ a :: t := hperm.mem_iff.mp (List.mem_cons_of_mem _ hbmem)
        have hnot := popMax_max a t b hbl
        unfold flushGE
        by_contra hblt
        rw [Bool.not_eq_true] at hblt
        have hkey := instrLT_connect hblt hnot
        exact hmaxids b hbmem hkey.2.symm
      · exact ih (popMax a t).2 hlen hdistRest

/-! ### Claim C2: flush order of the instruction buffer. -/

/-- C2 counterexample.  The claim states that among actions of equal
priority the flush submits unit ids in ascending order.  In the code the
`std::priority_queue` pops the greatest element under `Instr::operator<`,
and among equal priorities the greater id is the greater element, so ids
come out in descending order: flushing the two instructions with priority 5
and ids 1, 2 yields ids `[2, 1]`, not `[1, 2]`. -/
theorem c2_counterexample :
    (flushOrder [⟨5, false, 1, Dir.Up⟩, ⟨5, false, 2, Dir.Up⟩]).map Instr.id
        = [2, 1] ∧
      ([2, 1] : List Int) ≠ [1, 2] := by
  decide

/-- C2 (amended): for actions with pairwise distinct unit ids, the
end-of-round flush order is a deterministic function of the multiset of
actions (independent of insertion order), namely the sort by priority
descending and, among equal priorities, unit id DESCENDING. -/
theorem c2_flush_deterministic_sorted (l1 l2 : List Instr)
    (hperm : List.Perm l1 l2)
    (hids : l1.Pairwise (fun a b => a.id ≠ b.id)) :
    flushOrder l1 = flushOrder l2 ∧ List.Sorted flushGE (flushOrder l1) := by
  haveI : IsAntisymm Instr flushGE := by
    constructor
    intro a b h1 h2
    unfold flushGE at h1 h2
    rw [instrLT_asymm h2] at h1
    exact absurd h1 (by simp)
  have hids2 : l2.Pairwise (fun a b => a.id ≠ b.id) :=
    (hperm.pairwise_iff (fun h hh => h hh.symm)).mp hids
  have hs1 : List.Sorted flushGE (flushOrder l1) :=
    flushList_sorted l1.length l1 (le_refl _) hids
  have hs2 : List.Sorted flushGE (flushOrder l2) :=
    flushList_sorted l2.length l2 (le_refl _) hids2
  have hp : List.Perm (flushOrder l1) (flushOrder l2) :=
    ((flushList_perm l1.length l1 (le_refl _)).trans hperm).trans
      (flushList_perm l2.length l2 (le_refl _)).symm
  exact ⟨List.eq_of_perm_of_sorted hp hs1 hs2, hs1⟩

/-- C2 witness: the amended theorem applied to a concrete pair of buffers
holding the same three instructions in different insertion orders. -/
theorem c2_flush_deterministic_sorted_witness :
    flushOrder [⟨5, false, 1, Dir.Up⟩, ⟨7, true, 2, Dir.Left⟩, ⟨5, false, 3, Dir.Down⟩]
        = flushOrder [⟨5, false, 3, Dir.Down⟩, ⟨5, false, 1, Dir.Up⟩, ⟨7, true, 2, Dir.Left⟩] ∧
      List.Sorted flushGE
        (flushOrder [⟨5, false, 1, Dir.Up⟩, ⟨7, true, 2, Dir.Left⟩, ⟨5, false, 3, Dir.Down⟩]) :=
  c2_flush_deterministic_sorted _ _ (by decide) (by decide)

/-! ### The round world model as seen by the planner.

`Env` packages the matrices produced by `build_board` together with the
host-supplied constants and queries that `compute_closest` and
`approach_target` read.  `cellLife`, `cellIsWarrior` and `cellWeapon` model
the host lookups `citizen(cell(p).id).life` / `.type == Warrior` /
`my_weapon(citizen(cell(p).id))` used at lines 239-241 and 361. -/

structure BonusInfo where
  type : Char
  closest_dist : Int
  closest_is_friendly : Bool
deriving DecidableEq, Repr

/-- Default-constructed `Bonus_Info` (lines 114-121). -/
def defaultBonus : BonusInfo := ⟨'U', 0, false⟩

structure Env where
  n : Int
  m : Int
  board : Pos → Int
  boardEnemy : Pos → Int
  boardBarricades : Pos → Int
  bonusDist : Pos → BonusInfo
  bonusDistPrev : Pos → BonusInfo
  roundNum : Nat
  dayAt : Nat → Bool
  lifeLostInAttack : Int
  warriorIniLife : Int
  builderIniLife : Int
  builderStrengthDemolishV : Int
  hammerStrengthDemolishV : Int
  gunStrengthDemolishV : Int
  bazookaStrengthDemolishV : Int
  barricadeMaxResistance : Int
  maxNumBarricades : Nat
  cellLife : Pos → Int
  cellIsWarrior : Pos → Bool
  cellWeapon : Pos → Int

/-- The host's `pos_ok`. -/
def posOk (env : Env) (p : Pos) : Bool :=
  decide (0 ≤ p.1) && decide (p.1 < env.n) && decide (0 ≤ p.2) && decide (p.2 < env.m)

def isDay (env : Env) : Bool := env.dayAt env.roundNum

def isNight (env : Env) : Bool := !isDay env

/-- Addition of a C++ `int` to an `unsigned short int` variable:
the sum is computed in `int` and converted back modulo 2^16. -/
def ushortAdd (d : Nat) (x : Int) : Nat := (((d : Int) + x).emod 65536).toNat

/-- `strength_demolish` (lines 366-371). -/
def strengthDemolish (env : Env) (weapon : Int) : Int :=
  if weapon = BUILDER then env.builderStrengthDemolishV
  else if weapon = HAMMER then env.hammerStrengthDemolishV
  else if weapon = GUN then env.gunStrengthDemolishV
  else env.bazookaStrengthDemolishV

/-- `has_buildable_barricade` (lines 374-377). -/
def hasBuildableBarricade (env : Env) (p : Pos) : Bool :=
  posOk env p && decide (env.boardBarricades p > 0)
    && decide (env.board p ≠ FRIENDLY_CITIZEN)
    && decide (env.boardBarricades p
        < Int.tdiv (env.barricadeMaxResistance * PERCENT_BUILD) 100)

/-- `is_danger` (lines 380-384): moving to `pos` can cost damage unless
both this round and the next are day. -/
def isDanger (env : Env) (pos : Pos) (myWeapon : Int) : Bool :=
  if env.dayAt env.roundNum && env.dayAt (env.roundNum + 1) then false
  else decide (-env.boardEnemy pos > myWeapon)

/-! ### compute_closest (lines 204-279), the bonus-proximity search.

The queue element of `compute_closest` carries only a distance and a
position (the `dir` member of `Vertex` is never set nor read there). -/

structure CVertex where
  dist : Nat
  pos : Pos
deriving DecidableEq, Repr

/-- Pop a least-distance element from the search queue, modelling the
`std::priority_queue<Vertex>` whose comparator orders by greater distance;
among equal distances the earliest-inserted is taken (the C++ heap order
among ties is unspecified and never observable in the claims below). -/
def popMinC : CVertex → List CVertex → CVertex × List CVertex
  | a, [] => (a, [])
  | a, b :: l =>
    if (popMinC b l).1.dist < a.dist then ((popMinC b l).1, a :: (popMinC b l).2)
    else (a, b :: l)

/-- One neighbour-expansion pass of `compute_closest` (lines 261-276).
The accumulator carries the `dist` map, the queue, and the local variable
`distance`, which the source mutates with the barricade penalties — note
that the source adds those penalties to `distance` (a dead local copy) and
not to `new_distance`, so they never reach the recorded distances. -/
def computeClosestExpand (env : Env) (u : Pos)
    (st : (Pos → Nat) × List CVertex × Int) : (Pos → Nat) × List CVertex × Int :=
  Directions.foldl (fun st d =>
    let dist := st.1
    let q := st.2.1
    let distance := st.2.2
    let newP := shift u d
    if posOk env newP = true ∧ env.board newP ≠ WALL then
      let newDistance := ushortAdd (dist u) 1
      let distance :=
        if env.boardBarricades newP < 0 then
          distance + Int.tdiv (-env.boardBarricades newP) env.bazookaStrengthDemolishV
        else distance
      let distance :=
        if env.boardBarricades newP > 0 then
          distance + Int.tdiv (env.boardBarricades newP) env.bazookaStrengthDemolishV
        else distance
      if newDistance < dist newP then
        (fun p => if p = newP then newDistance else dist p,
          q ++ [⟨newDistance, newP⟩], distance)
      else (dist, q, distance)
    else (dist, q, distance)) st

/-- The dequeue loop of `compute_closest` (lines 220-277). -/
def computeClosestLoop (env : Env) (origin : Pos) (info : BonusInfo) (weapon : Int) :
    Nat → (Pos → Nat) → (Pos → Bool) → List CVertex → BonusInfo
  | 0, _, _, _ => info
  | _ + 1, _, _, [] => info
  | fuel + 1, dist, visited, a :: l =>
    let pq := popMinC a l
    let u := pq.1.pos
    if visited u then computeClosestLoop env origin info weapon fuel dist visited pq.2
    else
      let visited2 := fun p => if p = u then true else visited p
      let distance : Int := (dist u : Int)
      if env.board u ≤ ENEMY_BUILDER ∨ env.board u = FRIENDLY_CITIZEN then
        if info.type = 'M' then
          ⟨info.type, distance, env.board u = FRIENDLY_CITIZEN⟩
        else if info.type = 'W' ∧ env.board u = FRIENDLY_CITIZEN
            ∧ env.cellIsWarrior u = true ∧ env.cellWeapon u < weapon then
          ⟨info.type, distance, true⟩
        else if info.type = 'W' ∧ env.board u ≠ FRIENDLY_CITIZEN
            ∧ env.board u < ENEMY_BUILDER ∧ -env.board u < weapon then
          ⟨info.type, distance, false⟩
        else
          let st := computeClosestExpand env u (dist, pq.2, distance)
          computeClosestLoop env origin info weapon fuel st.1 visited2 st.2.1
      else
        let st := computeClosestExpand env u (dist, pq.2, distance)
        computeClosestLoop env origin info weapon fuel st.1 visited2 st.2.1

/-- `compute_closest` (lines 205-279): search outward from a bonus cell for
the closest interested citizen.  Returns the updated `Bonus_Info` (the
default-valued argument when no interested citizen is reachable). -/
def computeClosest (env : Env) (origin : Pos) (info : BonusInfo) (fuel : Nat) :
    BonusInfo :=
  let weapon := env.board origin
  let dist0 : Pos → Nat := fun p => if p = origin then 0 else 65535
  computeClosestLoop env origin info weapon fuel dist0 (fun _ => false) [⟨0, origin⟩]

/-! ### Claim C5: barricade penalty in compute_closest. -/

/-- Failing input for C5: a 1 x 3 corridor.  A money bonus sits at (0,0),
an enemy barricade of resistance 60 fills (0,1), and a friendly citizen
stands at (0,2).  The bazooka demolish rate is 10. -/
def env5 : Env :=
  ⟨1, 3,
    (fun p => if p = (0, 0) then MONEY
      else if p = (0, 2) then FRIENDLY_CITIZEN else EMPTY),
    (fun _ => 0),
    (fun p => if p = (0, 1) then -60 else 0),
    (fun _ => defaultBonus), (fun _ => defaultBonus),
    4, (fun _ => true),
    10, 50, 50,
    1, 2, 5, 10,
    100, 5,
    (fun _ => 50), (fun _ => false), (fun _ => BUILDER)⟩

/-- C5: the code records distance 2 to the citizen behind the barricade.
The claim (and the source's own comment, line 266: a simplified
`add_movement_penalties`) requires the edge into the barricade cell to
cost `1 + resistance / bazooka_strength_demolish() = 7`, for a recorded
distance of 8.  The penalty is added to the dead local `distance` instead
of `new_distance` (lines 267-268), so it never reaches the distance
matrix: the recorded distance is the plain BFS distance 2, not 8. -/
theorem c5_penalty_lost :
    computeClosest env5 (0, 0) ⟨'M', 0, false⟩ 20 = ⟨'M', 2, true⟩ ∧
      (2 : Int) ≠ (1 + Int.tdiv 60 env5.bazookaStrengthDemolishV) + 1 := by
  constructor
  · rfl
  · decide

/-! ### build_board and the threat halo (lines 282-350).

The host per-cell state is modelled by `HostCell`; `cellClass` is the
classification chain of lines 300-335, `buildBoardEnemy` is the
`Board_Enemy` matrix produced by the round's build (life written at enemy
cells, `update_danger` merged into the four orthogonal neighbours, cells
visited in row-major order). -/

inductive CWeapon : Type
  | NoWeapon : CWeapon
  | Hammer : CWeapon
  | Gun : CWeapon
  | Bazooka : CWeapon
deriving DecidableEq, Repr

structure HostCell where
  isBuilding : Bool
  hasFood : Bool
  hasMoney : Bool
  hasGunW : Bool
  hasBazookaW : Bool
  hasCitizen : Bool
  citFriendly : Bool
  citIsBuilder : Bool
  citWeapon : CWeapon
  citLife : Int
  resistance : Int
  barricadeMine : Bool
deriving DecidableEq, Repr

def emptyHostCell : HostCell :=
  ⟨false, false, false, false, false, false, false, false, CWeapon.NoWeapon, 0, -1, false⟩

structure Host where
  n : Int
  m : Int
  cellAt : Pos → HostCell

def posOkH (h : Host) (p : Pos) : Bool :=
  decide (0 ≤ p.1) && decide (p.1 < h.n) && decide (0 ≤ p.2) && decide (p.2 < h.m)

/-- The enemy strength code chosen at lines 319-323. -/
def enemyCode (c : HostCell) : Int :=
  if c.citIsBuilder then ENEMY_BUILDER
  else if c.citWeapon = CWeapon.Hammer then ENEMY_HAMMER
  else if c.citWeapon = CWeapon.Gun then ENEMY_GUN
  else ENEMY_BAZOOKA

/-- A cell reaches the enemy branch of the classification chain
(line 315 with all earlier tests failing, line 318). -/
def isEnemyCell (c : HostCell) : Bool :=
  !c.isBuilding && !c.hasFood && !c.hasMoney && !c.hasGunW && !c.hasBazookaW
    && c.hasCitizen && !c.citFriendly

/-- The `Board` classification chain (lines 300-335). -/
def cellClass (c : HostCell) : Int :=
  if c.isBuilding then WALL
  else if c.hasFood then FOOD
  else if c.hasMoney then MONEY
  else if c.hasGunW then GUN
  else if c.hasBazookaW then BAZOOKA
  else if c.hasCitizen then (if c.citFriendly then FRIENDLY_CITIZEN else enemyCode c)
  else EMPTY

/-- The `Board` matrix: its entries are written pointwise. -/
def buildBoardM (h : Host) : Pos → Int := fun p => cellClass (h.cellAt p)

/-- The `Board_Barricades` matrix (lines 338-342), also pointwise. -/
def buildBarricades (h : Host) : Pos → Int := fun p =>
  if (h.cellAt p).resistance = -1 then 0
  else if (h.cellAt p).barricadeMine then (h.cellAt p).resistance
  else -(h.cellAt p).resistance

/-- `update_danger` (lines 282-286). -/
def updateDanger (cell enemy : Int) : Int :=
  if cell > 0 ∨ cell ≤ enemy then cell else enemy

/-- The four orthogonal neighbours, in the update order of lines 329-332. -/
def neighbors (p : Pos) : List Pos :=
  [(p.1 - 1, p.2), (p.1 + 1, p.2), (p.1, p.2 - 1), (p.1, p.2 + 1)]

/-- Processing one cell of the row-major sweep of `build_board`, restricted
to its effect on `Board_Enemy` (lines 315-332): at an enemy cell, write the
enemy's life there and merge its code into the in-range neighbours. -/
def buildEnemyStep (h : Host) (M : Pos → Int) (p : Pos) : Pos → Int :=
  if isEnemyCell (h.cellAt p) = true then
    (neighbors p).foldl
      (fun Mc r =>
        if posOkH h r = true then
          fun q => if q = r then updateDanger (Mc r) (enemyCode (h.cellAt p)) else Mc q
        else Mc)
      (fun q => if q = p then (h.cellAt p).citLife else M q)
  else M

/-- The row-major visit order of the double loop at lines 298-299. -/
def rowMajor (h : Host) : List Pos :=
  (List.range h.n.toNat).flatMap
    (fun i => (List.range h.m.toNat).map (fun j => (Int.ofNat i, Int.ofNat j)))

/-- The `Board_Enemy` matrix after `build_board`: zero-initialised
(lines 293-295), then the row-major sweep. -/
def buildBoardEnemy (h : Host) : Pos → Int :=
  (rowMajor h).foldl (buildEnemyStep h) (fun _ => 0)

/-- The strongest-wins merge of the codes of all enemies among `L` that are
orthogonally adjacent to `p` (codes are negative, stronger is smaller), with
default 0.  This is the reference value the halo is compared against. -/
def threat (h : Host) (L : List Pos) (p : Pos) : Int :=
  L.foldl (fun acc q =>
    if isEnemyCell (h.cellAt q) = true ∧ p ∈ neighbors q then
      min acc (enemyCode (h.cellAt q))
    else acc) 0

/-! Auxiliary facts. -/

lemma neighbors_nodup (p : Pos) : (neighbors p).Nodup := by
  simp [neighbors, Prod.ext_iff]
  omega

lemma not_mem_neighbors_self (p : Pos) : p ∉ neighbors p := by
  simp [neighbors, Prod.ext_iff]
  omega

lemma updateDanger_nonpos {t c : Int} (ht : t ≤ 0) : updateDanger t c = min t c := by
  unfold updateDanger
  split_ifs <;> omega

lemma updateDanger_pos {t : Int} (c : Int) (ht : 0 < t) : updateDanger t c = t := by
  unfold updateDanger
  rw [if_pos (Or.inl ht)]

lemma enemyCode_neg (c : HostCell) : enemyCode c ≤ -3 := by
  unfold enemyCode
  split_ifs <;> simp [ENEMY_BUILDER, ENEMY_HAMMER, ENEMY_GUN, ENEMY_BAZOOKA]

/-- Evaluating a fold of guarded point updates over a duplicate-free list of
positions: the point `p` is updated exactly once if it is listed and passes
the guard. -/
lemma foldl_pointUpdate (cond : Pos → Bool) (code : Int) :
    ∀ (l : List Pos), l.Nodup → ∀ (M : Pos → Int) (p : Pos),
    (l.foldl (fun Mc r =>
        if cond r = true then
          fun q => if q = r then updateDanger (Mc r) code else Mc q
        else Mc) M) p =
      if p ∈ l ∧ cond p = true then updateDanger (M p) code else M p := by
  intro l
  induction l with
  | nil =>
    intro _ M p
    simp
  | cons r t ih =>
    intro hnd M p
    have hnr := (List.nodup_cons.mp hnd).1
    have hnd2 := (List.nodup_cons.mp hnd).2
    simp only [List.foldl_cons]
    rw [ih hnd2]
    have happ : (if cond r = true then
          (fun q => if q = r then updateDanger (M r) code else M q)
        else M) p =
        (if p = r ∧ cond r = true then updateDanger (M r) code else M p) := by
      by_cases hcr : cond r = true
      · by_cases hpr : p = r
        · simp [hcr, hpr]
        · simp [hcr, hpr]
      · by_cases hpr : p = r
        · simp [hcr, hpr]
        · simp [hcr, hpr]
    rw [happ]
    by_cases hpr : p = r
    · subst hpr
      have hpt : p ∉ t := fun hh => hnr hh
      by_cases hcp : cond p = true
      · simp [hpt, hcp]
      · simp [hpt, hcp]
    · by_cases hpt : p ∈ t
      · simp [hpt, hpr]
      · simp [hpt, hpr]

lemma threat_append (h : Host) (L : List Pos) (q : Pos) (p : Pos) :
    threat h (L ++ [q]) p =
      if isEnemyCell (h.cellAt q) = true ∧ p ∈ neighbors q then
        min (threat h L p) (enemyCode (h.cellAt q))
      else threat h L p := by
  unfold threat
  rw [List.foldl_append]
  simp only [List.foldl_cons, List.foldl_nil]

lemma threat_foldl_le (h : Host) (p : Pos) :
    ∀ (L : List Pos) (acc : Int),
      L.foldl (fun acc q =>
        if isEnemyCell (h.cellAt q) = true ∧ p ∈ neighbors q then
          min acc (enemyCode (h.cellAt q))
        else acc) acc ≤ acc := by
  intro L
  induction L with
  | nil =>
    intro acc
    simp
  | cons r t ih =>
    intro acc
    rw [List.foldl_cons]
    refine le_trans (ih _) ?_
    by_cases hc : isEnemyCell (h.cellAt r) = true ∧ p ∈ neighbors r
    · rw [if_pos hc]
      exact min_le_left _ _
    · rw [if_neg hc]

lemma threat_nonpos (h : Host) (L : List Pos) (p : Pos) : threat h L p ≤ 0 :=
  threat_foldl_le h p L 0

lemma threat_le (h : Host) (p : Pos) :
    ∀ (L : List Pos) (q : Pos), q ∈ L → isEnemyCell (h.cellAt q) = true →
      p ∈ neighbors q → threat h L p ≤ enemyCode (h.cellAt q) := by
  intro L
  induction L using List.reverseRecOn with
  | nil =>
    intro q hq
    simp at hq
  | append_singleton L r ih =>
    intro q hq hE hnb
    rw [threat_append]
    rcases List.mem_append.mp hq with hqL | hqr
    · by_cases hc : isEnemyCell (h.cellAt r) = true ∧ p ∈ neighbors r
      · rw [if_pos hc]
        exact le_trans (min_le_left _ _) (ih q hqL hE hnb)
      · rw [if_neg hc]
        exact ih q hqL hE hnb
    · have : q = r := by simpa using hqr
      subst this
      rw [if_pos ⟨hE, hnb⟩]
      exact min_le_right _ _

lemma threat_cases (h : Host) (p : Pos) :
    ∀ L : List Pos, threat h L p = 0 ∨
      ∃ q, q ∈ L ∧ isEnemyCell (h.cellAt q) = true ∧ p ∈ neighbors q ∧
        threat h L p = enemyCode (h.cellAt q) := by
  intro L
  induction L using List.reverseRecOn with
  | nil =>
    left
    simp [threat]
  | append_singleton L r ih =>
    rw [threat_append]
    by_cases hc : isEnemyCell (h.cellAt r) = true ∧ p ∈ neighbors r
    · rw [if_pos hc]
      rcases le_total (threat h L p) (enemyCode (h.cellAt r)) with hle | hle
      · rw [min_eq_left hle]
        rcases ih with h0 | ⟨q, hq, hE, hnb, heq⟩
        · left
          exact h0
        · right
          exact ⟨q, List.mem_append_left _ hq, hE, hnb, heq⟩
      · rw [min_eq_right hle]
        right
        exact ⟨r, List.mem_append_right _ (by simp), hc.1, hc.2, rfl⟩
    · rw [if_neg hc]
      rcases ih with h0 | ⟨q, hq, hE, hnb, heq⟩
      · left
        exact h0
      · right
        exact ⟨q, List.mem_append_left _ hq, hE, hnb, heq⟩

lemma mem_rowMajor (h : Host) (p : Pos) : p ∈ rowMajor h ↔ posOkH h p = true := by
  constructor
  · intro hmem
    rcases List.mem_flatMap.mp hmem with ⟨i, hi, hmap⟩
    rcases List.mem_map.mp hmap with ⟨j, hj, hpj⟩
    rw [List.mem_range] at hi hj
    rw [← hpj]
    simp only [posOkH, Bool.and_eq_true, decide_eq_true_eq, Int.ofNat_eq_coe]
    omega
  · intro hok
    simp only [posOkH, Bool.and_eq_true, decide_eq_true_eq] at hok
    obtain ⟨⟨⟨h1, h2⟩, h3⟩, h4⟩ := hok
    apply List.mem_flatMap.mpr
    refine ⟨p.1.toNat, ?_, ?_⟩
    · rw [List.mem_range]
      omega
    · apply List.mem_map.mpr
      refine ⟨p.2.toNat, ?_, ?_⟩
      · rw [List.mem_range]
        omega
      · have e1 : Int.ofNat p.1.toNat = p.1 := Int.toNat_of_nonneg h1
        have e2 : Int.ofNat p.2.toNat = p.2 := Int.toNat_of_nonneg h3
        cases p with
        | mk x y =>
          simp only at e1 e2
          rw [e1, e2]

/-- Equation lemma: processing an enemy cell. -/
lemma buildEnemyStep_pos (h : Host) (M : Pos → Int) (r : Pos)
    (hEr : isEnemyCell (h.cellAt r) = true) :
    buildEnemyStep h M r =
      (neighbors r).foldl
        (fun Mc s =>
          if posOkH h s = true then
            fun q => if q = s then updateDanger (Mc s) (enemyCode (h.cellAt r)) else Mc q
          else Mc)
        (fun q => if q = r then (h.cellAt r).citLife else M q) := by
  unfold buildEnemyStep
  rw [if_pos hEr]

/-- Equation lemma: processing a cell with no enemy leaves the matrix. -/
lemma buildEnemyStep_neg (h : Host) (M : Pos → Int) (r : Pos)
    (hEr : ¬ isEnemyCell (h.cellAt r) = true) :
    buildEnemyStep h M r = M := by
  unfold buildEnemyStep
  rw [if_neg hEr]

/-- Invariant of the row-major sweep: after processing the cells in `L`
(each in range, with positive enemy lives), an enemy cell already
processed holds its occupant's life, and every other cell holds the
strongest-wins merge of the codes of the processed adjacent enemies. -/
lemma buildEnemy_inv (h : Host) :
    ∀ L : List Pos,
      (∀ q ∈ L, posOkH h q = true) →
      (∀ q ∈ L, isEnemyCell (h.cellAt q) = true → 1 ≤ (h.cellAt q).citLife) →
      ∀ p : Pos, posOkH h p = true →
        (L.foldl (buildEnemyStep h) (fun _ => 0)) p =
          if isEnemyCell (h.cellAt p) = true ∧ p ∈ L then (h.cellAt p).citLife
          else threat h L p := by
  intro L
  induction L using List.reverseRecOn with
  | nil =>
    intro _ _ p _
    simp [threat]
  | append_singleton L r ih =>
    intro hok hlife p hp
    have hokL : ∀ q ∈ L, posOkH h q = true :=
      fun q hq => hok q (List.mem_append_left _ hq)
    have hlifeL : ∀ q ∈ L, isEnemyCell (h.cellAt q) = true → 1 ≤ (h.cellAt q).citLife :=
      fun q hq => hlife q (List.mem_append_left _ hq)
    rw [List.foldl_append]
    simp only [List.foldl_cons, List.foldl_nil]
    by_cases hEr : isEnemyCell (h.cellAt r) = true
    · -- an enemy is processed at r
      rw [buildEnemyStep_pos h _ r hEr]
      rw [foldl_pointUpdate (posOkH h) (enemyCode (h.cellAt r)) (neighbors r)
        (neighbors_nodup r)]
      rw [threat_append]
      by_cases hpr : p = r
      · subst hpr
        rw [if_neg (show ¬ (p ∈ neighbors p ∧ posOkH h p = true) from
          fun hcon => not_mem_neighbors_self p hcon.1)]
        simp [hEr, List.mem_append]
      · simp only [if_neg hpr]
        rw [ih hokL hlifeL p hp]
        by_cases hnb : p ∈ neighbors r
        · rw [if_pos (show p ∈ neighbors r ∧ posOkH h p = true from ⟨hnb, hp⟩)]
          by_cases hEp : isEnemyCell (h.cellAt p) = true ∧ p ∈ L
          · rw [if_pos hEp]
            rw [updateDanger_pos _ (lt_of_lt_of_le Int.zero_lt_one
              (hlifeL p hEp.2 hEp.1))]
            simp [hEp.1, hEp.2, List.mem_append]
          · rw [if_neg hEp]
            rw [updateDanger_nonpos (threat_nonpos h L p)]
            simp [List.mem_append, hpr, hEp, hEr, hnb]
        · rw [if_neg (show ¬ (p ∈ neighbors r ∧ posOkH h p = true) from
            fun hcon => hnb hcon.1)]
          by_cases hEp : isEnemyCell (h.cellAt p) = true ∧ p ∈ L
          · rw [if_pos hEp]
            simp [hEp.1, hEp.2, List.mem_append]
          · rw [if_neg hEp]
            simp [List.mem_append, hpr, hEp, hEr, hnb]
    · -- r holds no enemy: Board_Enemy is untouched
      rw [buildEnemyStep_neg h _ r hEr]
      rw [ih hokL hlifeL p hp]
      rw [threat_append, if_neg (show ¬ (isEnemyCell (h.cellAt r) = true ∧
        p ∈ neighbors r) from fun hcon => hEr hcon.1)]
      by_cases hpr : p = r
      · rw [if_neg (show ¬ (isEnemyCell (h.cellAt p) = true ∧ p ∈ L) from
          fun hcon => hEr (hpr ▸ hcon.1))]
        rw [if_neg (show ¬ (isEnemyCell (h.cellAt p) = true ∧ p ∈ L ++ [r]) from
          fun hcon => hEr (hpr ▸ hcon.1))]
      · by_cases hEp : isEnemyCell (h.cellAt p) = true ∧ p ∈ L
        · rw [if_pos hEp, if_pos (show isEnemyCell (h.cellAt p) = true ∧ p ∈ L ++ [r] from
            ⟨hEp.1, List.mem_append_left _ hEp.2⟩)]
        · rw [if_neg hEp]
          rw [if_neg (show ¬ (isEnemyCell (h.cellAt p) = true ∧ p ∈ L ++ [r]) from by
            intro hcon
            rcases List.mem_append.mp hcon.2 with hl | hr2
            · exact hEp ⟨hcon.1, hl⟩
            · exact hpr (by simpa using hr2))]

/-! ### Claim C3: the threat-halo matrix. -/

/-- Host state falsifying C3 as stated: a 2 x 2 board whose only content is
an enemy builder with 30 health at (0,0). -/
def host3 : Host :=
  ⟨2, 2, fun p =>
    if p = (0, 0) then
      ⟨false, false, false, false, false, true, false, true, CWeapon.NoWeapon, 30, -1, false⟩
    else emptyHostCell⟩

/-- C3 counterexample.  The claim says that after the world-model build,
EVERY cell of `Board_Enemy` holds the tier of the strongest orthogonally
adjacent enemy, or zero if none is adjacent.  At the enemy-occupied cell
(0,0) the build instead stores the occupant's remaining health 30, while
no enemy is adjacent to (0,0) (the strongest-adjacent merge there is 0). -/
theorem c3_counterexample :
    buildBoardEnemy host3 (0, 0) = 30 ∧
      threat host3 (rowMajor host3) (0, 0) = 0 ∧
      (30 : Int) ≠ 0 := by
  refine ⟨by decide, by decide, by decide⟩

/-- C3 (amended): after the build, a cell NOT occupied by an enemy holds in
`Board_Enemy` the strongest-wins merge (0 when no enemy is adjacent, else
the code of the strongest orthogonally adjacent enemy: the merged value is
at least as strong as every adjacent enemy and is realised by one of them);
a cell occupied by an enemy holds that enemy's remaining health instead.
Enemy lives are positive in any well-formed host state. -/
theorem c3_threat_halo (h : Host)
    (hlife : ∀ q ∈ rowMajor h, isEnemyCell (h.cellAt q) = true → 1 ≤ (h.cellAt q).citLife)
    (p : Pos) (hp : posOkH h p = true) :
    (isEnemyCell (h.cellAt p) = false →
        buildBoardEnemy h p = threat h (rowMajor h) p) ∧
      (isEnemyCell (h.cellAt p) = true →
        buildBoardEnemy h p = (h.cellAt p).citLife) ∧
      (∀ q : Pos, posOkH h q = true → isEnemyCell (h.cellAt q) = true →
        p ∈ neighbors q → threat h (rowMajor h) p ≤ enemyCode (h.cellAt q)) ∧
      (threat h (rowMajor h) p = 0 ∨
        ∃ q : Pos, posOkH h q = true ∧ isEnemyCell (h.cellAt q) = true ∧
          p ∈ neighbors q ∧ threat h (rowMajor h) p = enemyCode (h.cellAt q)) := by
  have hinv := buildEnemy_inv h (rowMajor h)
    (fun q hq => (mem_rowMajor h q).mp hq) hlife p hp
  refine ⟨?_, ?_, ?_, ?_⟩
  · intro hE
    show (rowMajor h).foldl (buildEnemyStep h) (fun _ => 0) p = _
    rw [hinv]
    rw [if_neg (by
      intro hcon
      rw [hcon.1] at hE
      exact Bool.true_eq_false.mp hE)]
  · intro hE
    show (rowMajor h).foldl (buildEnemyStep h) (fun _ => 0) p = _
    rw [hinv]
    rw [if_pos ⟨hE, (mem_rowMajor h p).mpr hp⟩]
  · intro q hq hE hnb
    exact threat_le h p (rowMajor h) q ((mem_rowMajor h q).mpr hq) hE hnb
  · rcases threat_cases h p (rowMajor h) with h0 | ⟨q, hq, hE, hnb, heq⟩
    · left
      exact h0
    · right
      exact ⟨q, (mem_rowMajor h q).mp hq, hE, hnb, heq⟩

/-- C3 witness: the amended characterisation applied to `host3` at the
non-enemy cell (0,1), which is adjacent to the enemy at (0,0). -/
theorem c3_threat_halo_witness :
    (isEnemyCell (host3.cellAt (0, 1)) = false →
        buildBoardEnemy host3 (0, 1) = threat host3 (rowMajor host3) (0, 1)) ∧
      (isEnemyCell (host3.cellAt (0, 1)) = true →
        buildBoardEnemy host3 (0, 1) = (host3.cellAt (0, 1)).citLife) ∧
      (∀ q : Pos, posOkH host3 q = true → isEnemyCell (host3.cellAt q) = true →
        (0, 1) ∈ neighbors q →
        threat host3 (rowMajor host3) (0, 1) ≤ enemyCode (host3.cellAt q)) ∧
      (threat host3 (rowMajor host3) (0, 1) = 0 ∨
        ∃ q : Pos, posOkH host3 q = true ∧ isEnemyCell (host3.cellAt q) = true ∧
          (0, 1) ∈ neighbors q ∧
          threat host3 (rowMajor host3) (0, 1) = enemyCode (host3.cellAt q)) :=
  c3_threat_halo host3 (by decide) (0, 1) (by decide)

/-! ### approach_target (lines 354-630), the per-unit planner. -/

/-- `is_stronger` (lines 358-363): the evaluating citizen (with the given
life and weapon code) is stronger than the enemy on the board at `p`; ties
in tier are broken by remaining health (`cellLife` models the host lookup
`citizen(cell(p).id).life`). -/
def isStronger (env : Env) (life weapon : Int) (p : Pos) : Bool :=
  if weapon = -env.board p then decide (life > env.cellLife p)
  else decide (weapon > -env.board p)

/-- `no_brainer` (lines 386-397).  Returns the flag together with the
(possibly updated) weapon: the weapon-grab branch overwrites the passed
`my_weapon` with the tier of the weapon about to be grabbed. -/
def noBrainer (env : Env) (p : Pos) (myWeapon : Int) (isWarrior : Bool) : Bool × Int :=
  if env.board p ≤ ENEMY_BUILDER ∧ -env.board p ≤ myWeapon ∧ isNight env = true
      ∧ env.boardEnemy p ≤ env.lifeLostInAttack ∧ env.boardBarricades p = 0 then
    (true, myWeapon)
  else if isWarrior = true ∧ env.board p > myWeapon then
    (true, env.board p)
  else (false, myWeapon)

/-- `add_movement_penalties` (lines 400-408), acting on an
`unsigned short int` distance. -/
def addMovementPenalties (env : Env) (pos : Pos) (distance : Nat) (weapon : Int) : Nat :=
  let d1 :=
    if env.boardBarricades pos < 0 then
      ushortAdd distance (Int.tdiv (-env.boardBarricades pos) (strengthDemolish env weapon))
    else distance
  let d2 :=
    if env.board pos ≤ ENEMY_BUILDER then
      ushortAdd d1 (Int.tdiv (env.boardEnemy pos) env.lifeLostInAttack - 1)
    else d1
  if env.board pos = FRIENDLY_CITIZEN then ushortAdd d2 COST_WALK_INTO_FRIENDLY else d2

/-- The money-cell profit of the planner (lines 510-517): base profit minus
distance, zeroed when positive, a recorded contender is strictly closer
than this unit, and that record is strictly below last round's record. -/
def moneyProfit (distance closest prevClosest : Int) : Int :=
  if MONEY_PROFIT - distance > 0 ∧ closest < distance ∧ closest < prevClosest then 0
  else MONEY_PROFIT - distance

/-- The planner's search vertex (lines 102-111). -/
structure Vertex where
  dist : Nat
  pos : Pos
  dir : Dir
deriving DecidableEq, Repr

/-- Pop a least-distance vertex, modelling `std::priority_queue<Vertex>`
(whose comparator prefers smaller distance); among equal distances the
earliest-inserted is kept. -/
def popMinQ : Vertex → List Vertex → Vertex × List Vertex
  | a, [] => (a, [])
  | a, b :: l =>
    if (popMinQ b l).1.dist < a.dist then ((popMinQ b l).1, a :: (popMinQ b l).2)
    else (a, b :: l)

/-- The mutable state of one `approach_target` invocation. -/
structure SState where
  dist : Pos → Nat
  visited : Pos → Bool
  queue : List Vertex
  bestProfit : Int
  bestDir : Dir
  takeOwn : Option Pos
  takeOwnDist : Int

/-- The profit evaluation of a dequeued cell `u` (lines 492-565).  Returns
the updated state and the `continue` flag of the warrior-attack branch
(which skips the neighbour expansion).  `needHeal` and `life` are the
evaluating citizen's data computed at lines 429-432. -/
def evalCell (env : Env) (life weapon : Int) (isWarrior needHeal : Bool)
    (u : Pos) (dir : Dir) (s : SState) : SState × Bool :=
  let distance : Int := (s.dist u : Int)
  if isWarrior = true ∧ env.board u ≤ ENEMY_BUILDER ∧ isStronger env life weapon u = true
      ∧ env.dayAt (env.roundNum + s.dist u) = false then
    let profit := ATTACK_PROFIT - distance
    let profit := if env.board u < ENEMY_BUILDER then profit + WARRIOR_EXTRA_PROFIT
      else profit
    if profit > s.bestProfit then
      ({ s with bestProfit := profit, bestDir := dir, takeOwn := none }, true)
    else (s, true)
  else if env.board u = MONEY then
    let profit := moneyProfit distance (env.bonusDist u).closest_dist
      (env.bonusDistPrev u).closest_dist
    if profit > s.bestProfit then
      ({ s with bestProfit := profit, bestDir := dir, takeOwn := none }, false)
    else (s, false)
  else if needHeal = true ∧ env.board u = FOOD then
    let profit := HEALTH_PROFIT - distance
    let profit := if env.lifeLostInAttack ≥ life then profit + ABOUT_TO_DIE_BONUS
      else profit
    if profit > s.bestProfit then
      ({ s with bestProfit := profit, bestDir := dir, takeOwn := none }, false)
    else (s, false)
  else if env.board u ≥ GUN ∧ (env.bonusDist u).closest_dist ≥ distance then
    if isWarrior = true ∧ env.board u > weapon then
      let profit := WEAPON_PROFIT - distance
      let profit := if env.board u = BAZOOKA then profit + BAZOOKA_EXTRA_PROFIT * 2
        else profit
      if profit > s.bestProfit then
        ({ s with bestProfit := profit, bestDir := dir, takeOwn := none }, false)
      else (s, false)
    else if (env.bonusDist u).closest_is_friendly = true then
      ({ s with dist := fun p => if p = u then ushortAdd (s.dist u) 4 else s.dist p },
        false)
    else
      let profit := STEAL_WEAPON_PROFIT - distance
      let profit := if env.board u = BAZOOKA then profit + BAZOOKA_EXTRA_PROFIT
        else profit
      if profit > s.bestProfit then
        ({ s with
            bestProfit := profit
            bestDir := dir
            takeOwn := some u
            takeOwnDist := distance }, false)
      else (s, false)
  else (s, false)

/-- One iteration of the neighbour expansion of a dequeued cell `u`
(lines 568-580): relax the edge to `u + d`, propagating the dequeued
vertex's direction. -/
def expandStep (env : Env) (weapon : Int) (u : Pos) (dir : Dir) (s : SState) (d : Dir) :
    SState :=
  if posOk env (shift u d) = true ∧ env.board (shift u d) ≠ WALL then
    if addMovementPenalties env (shift u d) (ushortAdd (s.dist u) 1) weapon
        < s.dist (shift u d) then
      { s with
        dist := fun p =>
          if p = shift u d then
            addMovementPenalties env (shift u d) (ushortAdd (s.dist u) 1) weapon
          else s.dist p,
        queue := s.queue ++
          [⟨addMovementPenalties env (shift u d) (ushortAdd (s.dist u) 1) weapon,
            shift u d, dir⟩] }
    else s
  else s

/-- The neighbour expansion of a dequeued cell `u` (lines 567-581). -/
def expandCell (env : Env) (weapon : Int) (u : Pos) (dir : Dir) (s : SState) : SState :=
  Directions.foldl (expandStep env weapon u dir) s

/-- The dequeue loop of the planner (lines 486-582). -/
def searchLoop (env : Env) (life weapon : Int) (isWarrior needHeal : Bool) :
    Nat → SState → SState
  | 0, s => s
  | fuel + 1, s =>
    match s.queue with
    | [] => s
    | a :: l =>
      let v := (popMinQ a l).1
      let s1 := { s with queue := (popMinQ a l).2 }
      if s1.visited v.pos = true then
        searchLoop env life weapon isWarrior needHeal fuel s1
      else
        let s2 := { s1 with visited := fun p => if p = v.pos then true else s1.visited p }
        let r := evalCell env life weapon isWarrior needHeal v.pos v.dir s2
        searchLoop env life weapon isWarrior needHeal fuel
          (if r.2 then r.1 else expandCell env weapon v.pos v.dir r.1)

/-- Result of the initial direction pass: either an early return of the
whole planner (the no-brainer fast path, lines 446-451), or the state to
continue the search with. -/
inductive FastOut : Type
  | early : Option (Int × Dir) → FastOut
  | cont : SState → FastOut

/-- The first seeding pass over the four directions (lines 441-467):
no-brainer early returns, then enqueueing of the fully safe directions. -/
def fastLoop (env : Env) (origin : Pos) (weapon : Int) (isWarrior : Bool) :
    List Dir → SState → FastOut
  | [], s => FastOut.cont s
  | d :: ds, s =>
    if posOk env (shift origin d) = false then fastLoop env origin weapon isWarrior ds s
    else
      if (noBrainer env (shift origin d) weapon isWarrior).1 = true then
        if (noBrainer env (shift origin d) weapon isWarrior).2
            < -env.boardEnemy (shift origin d) then
          FastOut.early none
        else FastOut.early (some (VERY_HIGH_PRIORITY, d))
      else
        if (Directions.all (fun e => !(posOk env (shift (shift origin d) e)
              && isDanger env (shift (shift origin d) e) weapon))) = true
            ∧ env.board (shift origin d) ≠ WALL
            ∧ isDanger env (shift origin d) weapon = false
            ∧ -env.board (shift origin d) < weapon then
          fastLoop env origin weapon isWarrior ds
            { s with
              dist := fun p =>
                if p = shift origin d then
                  addMovementPenalties env (shift origin d) 1 weapon
                else s.dist p,
              queue := s.queue ++
                [⟨addMovementPenalties env (shift origin d) 1 weapon, shift origin d, d⟩] }
        else fastLoop env origin weapon isWarrior ds s

/-- The fallback seeding pass (lines 469-483), used when no fully safe
direction was enqueued: same filter without the neighbourhood safety. -/
def slowSeed (env : Env) (origin : Pos) (weapon : Int) :
    List Dir → SState → SState
  | [], s => s
  | d :: ds, s =>
    if posOk env (shift origin d) = false then slowSeed env origin weapon ds s
    else
      if env.board (shift origin d) ≠ WALL
          ∧ isDanger env (shift origin d) weapon = false
          ∧ -env.board (shift origin d) < weapon then
        slowSeed env origin weapon ds
          { s with
            dist := fun p =>
              if p = shift origin d then addMovementPenalties env (shift origin d) 1 weapon
              else s.dist p,
            queue := s.queue ++
              [⟨addMovementPenalties env (shift origin d) 1 weapon, shift origin d, d⟩] }
      else slowSeed env origin weapon ds s

/-- The initial state of the planner search (lines 414-438). -/
def initState (origin : Pos) : SState :=
  ⟨fun p => if p = origin then 0 else 65535,
    fun p => decide (p = origin), [], INT_MIN, Dir.Left, none, 0⟩

/-- The post-search decision of `approach_target` (lines 584-629): the
barricade-building threshold, the in-danger multi-turn abort, the priority
assignment, and the provisional `take_ownership` write-back. -/
def postProcess (env : Env) (origin : Pos) (life weapon : Int) (isWarrior : Bool)
    (numBarricades : Nat) (s : SState) : Option (Int × Dir) × (Pos → BonusInfo) :=
  if s.bestProfit = INT_MIN then (none, env.bonusDist)
  else
    if s.bestProfit ≤
        (if isDay env = true ∧ isWarrior = false ∧ env.boardBarricades origin = 0 then
          Directions.foldl
            (fun t d => if hasBuildableBarricade env (shift origin d) = true then
              BARRICADE_INTERRUPT_THRESHOLD else t)
            (if numBarricades < env.maxNumBarricades then BARRICADE_THRESHOLD else INT_MIN)
        else INT_MIN) then (none, env.bonusDist)
    else
      if isDanger env origin weapon = true ∧ s.dist (shift origin s.bestDir) > 1 then
        (none, env.bonusDist)
      else
        (some
          ((if isDanger env origin weapon = true then
              if env.lifeLostInAttack ≥ life then RUN_DEATH_PRIORITY else RUN_PRIORITY
            else if env.boardEnemy (shift origin s.bestDir) = 0 then NOT_IMPORTANT
            else s.bestProfit), s.bestDir),
          match s.takeOwn with
          | none => env.bonusDist
          | some w => fun p =>
              if p = w then ⟨(env.bonusDist w).type, s.takeOwnDist, true⟩
              else env.bonusDist p)

/-- `approach_target` (lines 413-630).  The citizen is passed by its
position, life, weapon code (`my_weapon`) and role.  Returns the proposed
move (priority and direction, `none` when the planner reports no action)
together with the bonus-distance map after the provisional
`take_ownership` write-back of lines 623-626. -/
def needHeal (env : Env) (life : Int) (isWarrior : Bool) : Bool :=
  if isWarrior then decide (life < env.warriorIniLife)
  else decide (life < env.builderIniLife)

def approachTarget (env : Env) (origin : Pos) (life weapon : Int) (isWarrior : Bool)
    (numBarricades : Nat) (fuel : Nat) : Option (Int × Dir) × (Pos → BonusInfo) :=
  match fastLoop env origin weapon isWarrior Directions (initState origin) with
  | FastOut.early r => (r, env.bonusDist)
  | FastOut.cont s1 =>
    postProcess env origin life weapon isWarrior numBarricades
      (searchLoop env life weapon isWarrior (needHeal env life isWarrior) fuel
        (if s1.queue = [] then slowSeed env origin weapon Directions s1 else s1))

/-- Direction filter of the improve scan (lines 645-649). -/
def improvableDir (env : Env) (origin : Pos) (d : Dir) : Bool :=
  hasBuildableBarricade env (shift origin d)

/-- Direction filter of the guaranteed-enemy-free build scan (line 656). -/
def emptySafeDir (env : Env) (origin : Pos) (d : Dir) : Bool :=
  posOk env (shift origin d) && decide (env.board (shift origin d) = EMPTY)
    && decide (env.boardEnemy (shift origin d) = 0)
    && decide (env.boardBarricades (shift origin d) = 0)

/-- Direction filter of the unconditional build scan (line 664). -/
def emptyFreeDir (env : Env) (origin : Pos) (d : Dir) : Bool :=
  posOk env (shift origin d) && decide (env.board (shift origin d) = EMPTY)
    && decide (env.boardBarricades (shift origin d) = 0)

/-- `builder_day_task` (lines 637-670): run the planner; on failure improve
an adjacent buildable barricade, else build a new one (first on an
empty cell guaranteed free of enemies, then on any empty cell), counting
new barricades.  Returns the pushed instruction, if any, and the updated
`num_barricades`. -/
def builderDayTask (env : Env) (id : Int) (origin : Pos) (life : Int)
    (numBarricades : Nat) (fuel : Nat) : Option Instr × Nat :=
  match (approachTarget env origin life BUILDER false numBarricades fuel).1 with
  | some pd => (some ⟨pd.1, false, id, pd.2⟩, numBarricades)
  | none =>
    match Directions.find? (improvableDir env origin) with
    | some d => (some ⟨BUILD_PRIORITY, true, id, d⟩, numBarricades)
    | none =>
      if numBarricades ≥ env.maxNumBarricades then (none, numBarricades)
      else
        match Directions.find? (emptySafeDir env origin) with
        | some d => (some ⟨BUILD_PRIORITY, true, id, d⟩, numBarricades + 1)
        | none =>
          match Directions.find? (emptyFreeDir env origin) with
          | some d => (some ⟨BUILD_PRIORITY, true, id, d⟩, numBarricades + 1)
          | none => (none, numBarricades)

/-! ### Structural lemmas about the planner search. -/

lemma popMinQ_mem (a : Vertex) (l : List Vertex) : (popMinQ a l).1 ∈ a :: l := by
  induction l generalizing a with
  | nil => simp [popMinQ]
  | cons b t ih =>
    unfold popMinQ
    by_cases h : (popMinQ b t).1.dist < a.dist
    · simp only [if_pos h]
      exact List.mem_cons_of_mem a (ih b)
    · simp only [if_neg h]
      exact List.mem_cons_self a _

lemma popMinQ_sub (a : Vertex) (l : List Vertex) :
    ∀ x ∈ (popMinQ a l).2, x ∈ a :: l := by
  induction l generalizing a with
  | nil => simp [popMinQ]
  | cons b t ih =>
    unfold popMinQ
    by_cases h : (popMinQ b t).1.dist < a.dist
    · simp only [if_pos h]
      intro x hx
      rcases List.mem_cons.mp hx with hxa | hxr
      · rw [hxa]
        exact List.mem_cons_self a _
      · exact List.mem_cons_of_mem a (ih b x hxr)
    · simp only [if_neg h]
      intro x hx
      exact List.mem_cons_of_mem a hx

/-- The conditions guaranteed for every direction enqueued by the seeding
passes (lines 460 and 475): in range, not a wall, not dangerous for the
current weapon, not occupied by an equal-or-stronger enemy. -/
def seedOK (env : Env) (origin : Pos) (weapon : Int) (d : Dir) : Prop :=
  posOk env (shift origin d) = true ∧ env.board (shift origin d) ≠ WALL ∧
    isDanger env (shift origin d) weapon = false ∧ -env.board (shift origin d) < weapon

lemma fastLoop_cont (env : Env) (origin : Pos) (weapon : Int) (isWarrior : Bool) :
    ∀ (ds : List Dir) (s s' : SState),
      fastLoop env origin weapon isWarrior ds s = FastOut.cont s' →
      (∀ v ∈ s'.queue, v ∈ s.queue ∨ seedOK env origin weapon v.dir) ∧
      s'.bestProfit = s.bestProfit ∧ s'.bestDir = s.bestDir := by
  intro ds
  induction ds with
  | nil =>
    intro s s' h
    have hs : s = s' := by
      simpa [fastLoop] using h
    rw [← hs]
    exact ⟨fun v hv => Or.inl hv, rfl, rfl⟩
  | cons d ds ih =>
    intro s s' h
    simp only [fastLoop] at h
    by_cases h1 : posOk env (shift origin d) = false
    · rw [if_pos h1] at h
      exact ih s s' h
    · rw [if_neg h1] at h
      have h1t : posOk env (shift origin d) = true := by
        rw [← Bool.not_eq_false]
        exact h1
      by_cases h2 : (noBrainer env (shift origin d) weapon isWarrior).1 = true
      · rw [if_pos h2] at h
        by_cases h3 : (noBrainer env (shift origin d) weapon isWarrior).2
            < -env.boardEnemy (shift origin d)
        · rw [if_pos h3] at h
          exact absurd h (by simp)
        · rw [if_neg h3] at h
          exact absurd h (by simp)
      · rw [if_neg h2] at h
        by_cases h3 : (Directions.all (fun e => !(posOk env (shift (shift origin d) e)
              && isDanger env (shift (shift origin d) e) weapon))) = true
            ∧ env.board (shift origin d) ≠ WALL
            ∧ isDanger env (shift origin d) weapon = false
            ∧ -env.board (shift origin d) < weapon
        · rw [if_pos h3] at h
          have hres := ih _ s' h
          refine ⟨?_, hres.2.1, hres.2.2⟩
          intro v hv
          rcases hres.1 v hv with hvq | hvseed
          · rcases List.mem_append.mp hvq with hvs | hvnew
            · exact Or.inl hvs
            · right
              have hveq : v = ⟨addMovementPenalties env (shift origin d) 1 weapon,
                  shift origin d, d⟩ := by
                simpa using hvnew
              rw [hveq]
              exact ⟨h1t, h3.2.1, h3.2.2.1, h3.2.2.2⟩
          · exact Or.inr hvseed
        · rw [if_neg h3] at h
          exact ih s s' h

lemma fastLoop_early_sound (env : Env) (origin : Pos) (weapon : Int) (isWarrior : Bool) :
    ∀ (ds : List Dir) (s : SState) (pr : Int) (d : Dir),
      fastLoop env origin weapon isWarrior ds s = FastOut.early (some (pr, d)) →
      pr = VERY_HIGH_PRIORITY ∧ posOk env (shift origin d) = true ∧
      (noBrainer env (shift origin d) weapon isWarrior).1 = true ∧
      -env.boardEnemy (shift origin d) ≤ (noBrainer env (shift origin d) weapon isWarrior).2 := by
  intro ds
  induction ds with
  | nil =>
    intro s pr d h
    exact absurd h (by simp [fastLoop])
  | cons e ds ih =>
    intro s pr d h
    simp only [fastLoop] at h
    by_cases h1 : posOk env (shift origin e) = false
    · rw [if_pos h1] at h
      exact ih s pr d h
    · rw [if_neg h1] at h
      have h1t : posOk env (shift origin e) = true := by
        rw [← Bool.not_eq_false]
        exact h1
      by_cases h2 : (noBrainer env (shift origin e) weapon isWarrior).1 = true
      · rw [if_pos h2] at h
        by_cases h3 : (noBrainer env (shift origin e) weapon isWarrior).2
            < -env.boardEnemy (shift origin e)
        · rw [if_pos h3] at h
          exact absurd h (by simp)
        · rw [if_neg h3] at h
          have hde : VERY_HIGH_PRIORITY = pr ∧ e = d := by
            have := h
            simp at this
            exact this
          obtain ⟨hpr, hed⟩ := hde
          rw [← hed, ← hpr]
          exact ⟨rfl, h1t, h2, not_lt.mp h3⟩
      · rw [if_neg h2] at h
        by_cases h3 : (Directions.all (fun f => !(posOk env (shift (shift origin e) f)
              && isDanger env (shift (shift origin e) f) weapon))) = true
            ∧ env.board (shift origin e) ≠ WALL
            ∧ isDanger env (shift origin e) weapon = false
            ∧ -env.board (shift origin e) < weapon
        · rw [if_pos h3] at h
          exact ih _ pr d h
        · rw [if_neg h3] at h
          exact ih s pr d h

lemma slowSeed_shape (env : Env) (origin : Pos) (weapon : Int) :
    ∀ (ds : List Dir) (s : SState),
      (∀ v ∈ (slowSeed env origin weapon ds s).queue,
        v ∈ s.queue ∨ seedOK env origin weapon v.dir) ∧
      (slowSeed env origin weapon ds s).bestProfit = s.bestProfit ∧
      (slowSeed env origin weapon ds s).bestDir = s.bestDir := by
  intro ds
  induction ds with
  | nil =>
    intro s
    exact ⟨fun v hv => Or.inl hv, rfl, rfl⟩
  | cons d ds ih =>
    intro s
    simp only [slowSeed]
    by_cases h1 : posOk env (shift origin d) = false
    · rw [if_pos h1]
      exact ih s
    · rw [if_neg h1]
      have h1t : posOk env (shift origin d) = true := by
        rw [← Bool.not_eq_false]
        exact h1
      by_cases h3 : env.board (shift origin d) ≠ WALL
          ∧ isDanger env (shift origin d) weapon = false
          ∧ -env.board (shift origin d) < weapon
      · rw [if_pos h3]
        refine ⟨?_, (ih _).2.1, (ih _).2.2⟩
        intro v hv
        rcases (ih _).1 v hv with hvq | hvseed
        · rcases List.mem_append.mp hvq with hvs | hvnew
          · exact Or.inl hvs
          · right
            have hveq : v = ⟨addMovementPenalties env (shift origin d) 1 weapon,
                shift origin d, d⟩ := by
              simpa using hvnew
            rw [hveq]
            exact ⟨h1t, h3.1, h3.2.1, h3.2.2⟩
        · exact Or.inr hvseed
      · rw [if_neg h3]
        exact ih s

lemma evalCell_shape (env : Env) (life weapon : Int) (isWarrior needHealB : Bool)
    (u : Pos) (dir : Dir) (s : SState) :
    (evalCell env life weapon isWarrior needHealB u dir s).1.queue = s.queue ∧
    ((evalCell env life weapon isWarrior needHealB u dir s).1.bestProfit = s.bestProfit ∧
        (evalCell env life weapon isWarrior needHealB u dir s).1.bestDir = s.bestDir
      ∨ (evalCell env life weapon isWarrior needHealB u dir s).1.bestDir = dir) := by
  unfold evalCell
  dsimp only
  split_ifs <;> simp

lemma expandStep_shape (env : Env) (weapon : Int) (u : Pos) (dir : Dir)
    (s : SState) (d : Dir) :
    ((expandStep env weapon u dir s d).bestProfit = s.bestProfit ∧
      (expandStep env weapon u dir s d).bestDir = s.bestDir) ∧
    ∀ v ∈ (expandStep env weapon u dir s d).queue, v ∈ s.queue ∨ v.dir = dir := by
  unfold expandStep
  by_cases h1 : posOk env (shift u d) = true ∧ env.board (shift u d) ≠ WALL
  · rw [if_pos h1]
    by_cases h2 : addMovementPenalties env (shift u d) (ushortAdd (s.dist u) 1) weapon
        < s.dist (shift u d)
    · rw [if_pos h2]
      refine ⟨⟨rfl, rfl⟩, ?_⟩
      intro v hv
      rcases List.mem_append.mp hv with hv2 | hv2
      · exact Or.inl hv2
      · right
        have hveq : v = ⟨addMovementPenalties env (shift u d) (ushortAdd (s.dist u) 1)
            weapon, shift u d, dir⟩ := by
          simpa using hv2
        rw [hveq]
    · rw [if_neg h2]
      exact ⟨⟨rfl, rfl⟩, fun v hv => Or.inl hv⟩
  · rw [if_neg h1]
    exact ⟨⟨rfl, rfl⟩, fun v hv => Or.inl hv⟩

lemma expandFold_shape (env : Env) (weapon : Int) (u : Pos) (dir : Dir) :
    ∀ (ds : List Dir) (s : SState),
      ((ds.foldl (expandStep env weapon u dir) s).bestProfit = s.bestProfit ∧
        (ds.foldl (expandStep env weapon u dir) s).bestDir = s.bestDir) ∧
      ∀ v ∈ (ds.foldl (expandStep env weapon u dir) s).queue,
        v ∈ s.queue ∨ v.dir = dir := by
  intro ds
  induction ds with
  | nil =>
    intro s
    exact ⟨⟨rfl, rfl⟩, fun v hv => Or.inl hv⟩
  | cons e t ih =>
    intro s
    rw [List.foldl_cons]
    have h1 := expandStep_shape env weapon u dir s e
    have h2 := ih (expandStep env weapon u dir s e)
    refine ⟨⟨h2.1.1.trans h1.1.1, h2.1.2.trans h1.1.2⟩, ?_⟩
    intro v hv
    rcases h2.2 v hv with hv2 | hv2
    · rcases h1.2 v hv2 with hv3 | hv3
      · exact Or.inl hv3
      · exact Or.inr hv3
    · exact Or.inr hv2

lemma searchLoop_nil (env : Env) (life weapon : Int) (isWarrior needHealB : Bool)
    (n : Nat) (s : SState) (hq : s.queue = []) :
    searchLoop env life weapon isWarrior needHealB (n + 1) s = s := by
  simp only [searchLoop]
  rw [hq]

lemma searchLoop_cons (env : Env) (life weapon : Int) (isWarrior needHealB : Bool)
    (n : Nat) (s : SState) (a : Vertex) (l : List Vertex) (hq : s.queue = a :: l) :
    searchLoop env life weapon isWarrior needHealB (n + 1) s =
      (if s.visited (popMinQ a l).1.pos = true then
        searchLoop env life weapon isWarrior needHealB n { s with queue := (popMinQ a l).2 }
      else
        searchLoop env life weapon isWarrior needHealB n
          (if (evalCell env life weapon isWarrior needHealB (popMinQ a l).1.pos
              (popMinQ a l).1.dir
              { s with
                queue := (popMinQ a l).2,
                visited := fun p => if p = (popMinQ a l).1.pos then true
                  else s.visited p }).2 = true then
            (evalCell env life weapon isWarrior needHealB (popMinQ a l).1.pos
              (popMinQ a l).1.dir
              { s with
                queue := (popMinQ a l).2,
                visited := fun p => if p = (popMinQ a l).1.pos then true
                  else s.visited p }).1
          else
            expandCell env weapon (popMinQ a l).1.pos (popMinQ a l).1.dir
              (evalCell env life weapon isWarrior needHealB (popMinQ a l).1.pos
                (popMinQ a l).1.dir
                { s with
                  queue := (popMinQ a l).2,
                  visited := fun p => if p = (popMinQ a l).1.pos then true
                    else s.visited p }).1)) := by
  simp only [searchLoop]
  rw [hq]

/-- The invariant carried through the planner's dequeue loop: every queued
vertex, and the current best direction (once a candidate was recorded),
originates from a seeded initial direction. -/
def searchInv (env : Env) (origin : Pos) (weapon : Int) (s : SState) : Prop :=
  (∀ v ∈ s.queue, seedOK env origin weapon v.dir) ∧
  (s.bestProfit = INT_MIN ∨ seedOK env origin weapon s.bestDir)

lemma searchLoop_inv (env : Env) (origin : Pos) (life weapon : Int)
    (isWarrior needHealB : Bool) :
    ∀ (fuel : Nat) (s : SState), searchInv env origin weapon s →
      searchInv env origin weapon
        (searchLoop env life weapon isWarrior needHealB fuel s) := by
  intro fuel
  induction fuel with
  | zero =>
    intro s hs
    exact hs
  | succ n ih =>
    intro s hs
    rcases hq : s.queue with _ | ⟨a, l⟩
    · rw [searchLoop_nil env life weapon isWarrior needHealB n s hq]
      exact hs
    · rw [searchLoop_cons env life weapon isWarrior needHealB n s a l hq]
      have hvmem : (popMinQ a l).1 ∈ s.queue := by
        rw [hq]
        exact popMinQ_mem a l
      have hsub : ∀ x ∈ (popMinQ a l).2, x ∈ s.queue := by
        rw [hq]
        exact popMinQ_sub a l
      by_cases hvis : s.visited (popMinQ a l).1.pos = true
      · rw [if_pos hvis]
        exact ih _ ⟨fun v hv => hs.1 v (hsub v hv), hs.2⟩
      · rw [if_neg hvis]
        apply ih
        have hinv2 : searchInv env origin weapon
            { s with
              queue := (popMinQ a l).2,
              visited := fun p => if p = (popMinQ a l).1.pos then true
                else s.visited p } :=
          ⟨fun v hv => hs.1 v (hsub v hv), hs.2⟩
        have hev := evalCell_shape env life weapon isWarrior needHealB
          (popMinQ a l).1.pos (popMinQ a l).1.dir
          { s with
            queue := (popMinQ a l).2,
            visited := fun p => if p = (popMinQ a l).1.pos then true
              else s.visited p }
        have hinv3 : searchInv env origin weapon
            (evalCell env life weapon isWarrior needHealB
              (popMinQ a l).1.pos (popMinQ a l).1.dir
              { s with
                queue := (popMinQ a l).2,
                visited := fun p => if p = (popMinQ a l).1.pos then true
                  else s.visited p }).1 := by
          constructor
          · intro v hv
            rw [hev.1] at hv
            exact hinv2.1 v hv
          · rcases hev.2 with ⟨hbp, hbd⟩ | hbd
            · rw [hbp, hbd]
              exact hinv2.2
            · right
              rw [hbd]
              exact hs.1 _ hvmem
        by_cases hstop : (evalCell env life weapon isWarrior needHealB
            (popMinQ a l).1.pos (popMinQ a l).1.dir
            { s with
              queue := (popMinQ a l).2,
              visited := fun p => if p = (popMinQ a l).1.pos then true
                else s.visited p }).2 = true
        · rw [if_pos hstop]
          exact hinv3
        · rw [if_neg hstop]
          unfold expandCell
          have hexp := expandFold_shape env weapon (popMinQ a l).1.pos
            (popMinQ a l).1.dir Directions
            (evalCell env life weapon isWarrior needHealB
              (popMinQ a l).1.pos (popMinQ a l).1.dir
              { s with
                queue := (popMinQ a l).2,
                visited := fun p => if p = (popMinQ a l).1.pos then true
                  else s.visited p }).1
          constructor
          · intro v hv
            rcases hexp.2 v hv with hv2 | hv2
            · exact hinv3.1 v hv2
            · rw [hv2]
              exact hs.1 _ hvmem
          · rcases hinv3.2 with hbp | hbd
            · left
              rw [hexp.1.1, hbp]
            · right
              rw [hexp.1.2]
              exact hbd

/-- When the post-search decision commits a move, its direction is the
best direction found by the search, and a candidate was recorded. -/
lemma postProcess_some (env : Env) (origin : Pos) (life weapon : Int)
    (isWarrior : Bool) (numBarricades : Nat) (s : SState) (pr : Int) (d : Dir)
    (h : (postProcess env origin life weapon isWarrior numBarricades s).1 = some (pr, d)) :
    d = s.bestDir ∧ ¬ s.bestProfit = INT_MIN := by
  unfold postProcess at h
  by_cases h1 : s.bestProfit = INT_MIN
  · rw [if_pos h1] at h
    exact absurd h (by simp)
  · rw [if_neg h1] at h
    by_cases h2 : s.bestProfit ≤
        (if isDay env = true ∧ isWarrior = false ∧ env.boardBarricades origin = 0 then
          Directions.foldl
            (fun t d => if hasBuildableBarricade env (shift origin d) = true then
              BARRICADE_INTERRUPT_THRESHOLD else t)
            (if numBarricades < env.maxNumBarricades then BARRICADE_THRESHOLD else INT_MIN)
        else INT_MIN)
    · rw [if_pos h2] at h
      exact absurd h (by simp)
    · rw [if_neg h2] at h
      by_cases h3 : isDanger env origin weapon = true ∧ s.dist (shift origin s.bestDir) > 1
      · rw [if_pos h3] at h
        exact absurd h (by simp)
      · rw [if_neg h3] at h
        simp only [Option.some.injEq, Prod.mk.injEq] at h
        exact ⟨h.2.symm, h1⟩

/-- When `no_brainer` fires, it is the night-kill branch (weapon left
unchanged) or the warrior weapon-grab branch (weapon replaced by the tier
of the weapon on the board). -/
lemma noBrainer_true_cases (env : Env) (p : Pos) (w : Int) (iw : Bool)
    (h : (noBrainer env p w iw).1 = true) :
    (env.board p ≤ ENEMY_BUILDER ∧ -env.board p ≤ w ∧ (noBrainer env p w iw).2 = w) ∨
    (env.board p > w ∧ (noBrainer env p w iw).2 = env.board p) := by
  unfold noBrainer at h ⊢
  by_cases h1 : env.board p ≤ ENEMY_BUILDER ∧ -env.board p ≤ w ∧ isNight env = true
      ∧ env.boardEnemy p ≤ env.lifeLostInAttack ∧ env.boardBarricades p = 0
  · rw [if_pos h1]
    exact Or.inl ⟨h1.1, h1.2.1, rfl⟩
  · rw [if_neg h1] at h ⊢
    by_cases h2 : iw = true ∧ env.board p > w
    · rw [if_pos h2]
      exact Or.inr ⟨h2.2, rfl⟩
    · rw [if_neg h2] at h
      exact absurd h (by simp)

/-- Skipping a prefix of directions none of which fires the no-brainer
check: the loop continues on the rest from some (possibly seeded) state. -/
lemma fastLoop_reaches (env : Env) (origin : Pos) (weapon : Int) (isWarrior : Bool) :
    ∀ (pre rest : List Dir) (s : SState),
      (∀ e ∈ pre, posOk env (shift origin e) = false ∨
        (noBrainer env (shift origin e) weapon isWarrior).1 = false) →
      ∃ s2 : SState, fastLoop env origin weapon isWarrior (pre ++ rest) s =
        fastLoop env origin weapon isWarrior rest s2 := by
  intro pre
  induction pre with
  | nil =>
    intro rest s _
    exact ⟨s, rfl⟩
  | cons e t ih =>
    intro rest s hpre
    have hpre2 : ∀ x ∈ t, posOk env (shift origin x) = false ∨
        (noBrainer env (shift origin x) weapon isWarrior).1 = false :=
      fun x hx => hpre x (by simp [hx])
    by_cases h1 : posOk env (shift origin e) = false
    · show ∃ s2, fastLoop env origin weapon isWarrior (e :: (t ++ rest)) s = _
      simp only [fastLoop]
      rw [if_pos h1]
      exact ih rest s hpre2
    · have h2 : (noBrainer env (shift origin e) weapon isWarrior).1 = false := by
        rcases hpre e (by simp) with hc | hc
        · exact absurd hc h1
        · exact hc
      show ∃ s2, fastLoop env origin weapon isWarrior (e :: (t ++ rest)) s = _
      simp only [fastLoop]
      rw [if_neg h1, if_neg (by simp [h2])]
      split
      · exact ih rest _ hpre2
      · exact ih rest s hpre2

/-- The first direction whose cell fires the no-brainer check decides the
planner: wait (danger) or move at top priority. -/
lemma fastLoop_hit (env : Env) (origin : Pos) (weapon : Int) (isWarrior : Bool)
    (d : Dir) (rest : List Dir) (s : SState)
    (hok : posOk env (shift origin d) = true)
    (hnb : (noBrainer env (shift origin d) weapon isWarrior).1 = true) :
    fastLoop env origin weapon isWarrior (d :: rest) s =
      (if (noBrainer env (shift origin d) weapon isWarrior).2
          < -env.boardEnemy (shift origin d) then FastOut.early none
       else FastOut.early (some (VERY_HIGH_PRIORITY, d))) := by
  simp only [fastLoop]
  rw [if_neg (by simp [hok]), if_pos hnb]

/-! ### Claim C1: safety of proposed moves. -/

/-- C1 (amended): any move `approach_target` proposes targets an in-range,
non-wall cell whose occupant, if an enemy, has tier at most the unit's
weapon tier (equal tier is possible only on the night-kill fast path; the
general search requires strictly lower tier); and the target either passes
the danger rule for the unit's CURRENT weapon (always true for moves
committed after the general search), or — on the fast path — the strongest
enemy recorded adjacent to it is at most the larger of the current weapon
and the tier of the weapon being stepped onto. -/
theorem c1_planner_move_safety (env : Env) (origin : Pos) (life weapon : Int)
    (isWarrior : Bool) (numBarricades fuel : Nat) (pr : Int) (d : Dir)
    (hw : BUILDER ≤ weapon)
    (hres : (approachTarget env origin life weapon isWarrior numBarricades fuel).1
      = some (pr, d)) :
    posOk env (shift origin d) = true ∧
    env.board (shift origin d) ≠ WALL ∧
    (env.board (shift origin d) ≤ ENEMY_BUILDER → -env.board (shift origin d) ≤ weapon) ∧
    (isDanger env (shift origin d) weapon = false ∨
      -env.boardEnemy (shift origin d) ≤ max weapon (env.board (shift origin d))) := by
  unfold approachTarget at hres
  cases hfl : fastLoop env origin weapon isWarrior Directions (initState origin) with
  | early r =>
    rw [hfl] at hres
    have hres2 : r = some (pr, d) := hres
    rw [hres2] at hfl
    obtain ⟨hpr, hok, hnb, hle⟩ := fastLoop_early_sound env origin weapon isWarrior
      Directions (initState origin) pr d hfl
    rcases noBrainer_true_cases env (shift origin d) weapon isWarrior hnb with
      ⟨hkb, hkw, hk2⟩ | ⟨hgb, hg2⟩
    · refine ⟨hok, ?_, fun _ => hkw, Or.inr ?_⟩
      · intro hwall
        rw [hwall] at hkb
        simp only [WALL, ENEMY_BUILDER] at hkb
        omega
      · rw [hk2] at hle
        exact le_trans hle (le_max_left _ _)
    · refine ⟨hok, ?_, ?_, Or.inr ?_⟩
      · intro hwall
        rw [hwall] at hgb
        simp only [WALL] at hgb
        simp only [BUILDER] at hw
        omega
      · intro hEB
        simp only [ENEMY_BUILDER] at hEB
        simp only [BUILDER] at hw
        omega
      · rw [hg2] at hle
        exact le_trans hle (le_max_right _ _)
  | cont s1 =>
    rw [hfl] at hres
    have hres2 : (postProcess env origin life weapon isWarrior numBarricades
        (searchLoop env life weapon isWarrior (needHeal env life isWarrior) fuel
          (if s1.queue = [] then slowSeed env origin weapon Directions s1 else s1))).1
        = some (pr, d) := hres
    have hcont := fastLoop_cont env origin weapon isWarrior Directions
      (initState origin) s1 hfl
    have hq1 : ∀ v ∈ s1.queue, seedOK env origin weapon v.dir := by
      intro v hv
      rcases hcont.1 v hv with hvq | hvs
      · exact absurd hvq (by simp [initState])
      · exact hvs
    have hbp1 : s1.bestProfit = INT_MIN := hcont.2.1
    have hinv2 : searchInv env origin weapon
        (if s1.queue = [] then slowSeed env origin weapon Directions s1 else s1) := by
      by_cases hqe : s1.queue = []
      · rw [if_pos hqe]
        have hss := slowSeed_shape env origin weapon Directions s1
        constructor
        · intro v hv
          rcases hss.1 v hv with hvq | hvs
          · exact hq1 v hvq
          · exact hvs
        · left
          rw [hss.2.1, hbp1]
      · rw [if_neg hqe]
        exact ⟨hq1, Or.inl hbp1⟩
    have hS := searchLoop_inv env origin life weapon isWarrior
      (needHeal env life isWarrior) fuel _ hinv2
    have hpp := postProcess_some env origin life weapon isWarrior numBarricades _ pr d hres2
    rcases hS.2 with hmin | hseed
    · exact absurd hmin hpp.2
    · rw [hpp.1]
      obtain ⟨hok, hwall, hdang, hlt⟩ := hseed
      exact ⟨hok, hwall, fun _ => le_of_lt hlt, Or.inl hdang⟩

/-- Environment falsifying C1 as stated: a 3 x 3 board, the unit (a warrior
holding a hammer) at (1,1), a gun on the ground at (1,2), and an enemy
armed with a gun at (0,2).  The threat matrix records that enemy's tier in
the halo of (1,2) and its life at (0,2), exactly as `build_board` would. -/
def env1 : Env :=
  ⟨3, 3,
    (fun p => if p = (0, 2) then ENEMY_GUN
      else if p = (1, 2) then GUN
      else if p = (1, 1) then FRIENDLY_CITIZEN else EMPTY),
    (fun p => if p = (0, 2) then 30
      else if p = (1, 2) then -5
      else if p = (0, 1) then -5 else 0),
    (fun _ => 0),
    (fun p => if p = (1, 2) then ⟨'W', 3, false⟩ else defaultBonus),
    (fun _ => defaultBonus),
    10, (fun _ => false),
    10, 50, 50,
    1, 2, 5, 10,
    100, 5,
    (fun _ => 30), (fun _ => false), (fun _ => BUILDER)⟩

/-- C1 counterexample.  The claim requires every proposed move (outside the
immediate-danger override) to satisfy the danger rule for the unit's
CURRENT weapon.  In `env1` the hammer warrior's weapon-grab fast path
proposes stepping onto the gun at (1,2) even though an enemy of tier 5 > 4
is adjacent to it at night (the fast path compares the halo against the
GRABBED weapon's tier, line 448): the target is unsafe per `is_danger` for
the current weapon, and no override applies (the unit's own cell is safe). -/
theorem c1_counterexample :
    (approachTarget env1 (1, 1) 40 HAMMER true 0 99).1
        = some (VERY_HIGH_PRIORITY, Dir.Right) ∧
      shift (1, 1) Dir.Right = (1, 2) ∧
      isDanger env1 (1, 2) HAMMER = true ∧
      isDanger env1 (1, 1) HAMMER = false := by
  exact ⟨rfl, rfl, rfl, rfl⟩

/-- C1 witness: the amended safety statement applied to the concrete
proposal of `env1`. -/
theorem c1_planner_move_safety_witness :
    posOk env1 (shift (1, 1) Dir.Right) = true ∧
      env1.board (shift (1, 1) Dir.Right) ≠ WALL ∧
      (env1.board (shift (1, 1) Dir.Right) ≤ ENEMY_BUILDER →
        -env1.board (shift (1, 1) Dir.Right) ≤ HAMMER) ∧
      (isDanger env1 (shift (1, 1) Dir.Right) HAMMER = false ∨
        -env1.boardEnemy (shift (1, 1) Dir.Right) ≤
          max HAMMER (env1.board (shift (1, 1) Dir.Right))) :=
  c1_planner_move_safety env1 (1, 1) 40 HAMMER true 0 99 VERY_HIGH_PRIORITY Dir.Right
    (by decide) (by decide)

/-! ### Claim C6: the no-brainer fast path. -/

/-- C6 (amended): the planner examines the four neighbours in the fixed
order Up, Down, Left, Right, and the FIRST one that fires the no-brainer
check decides its outcome: if the strongest enemy recorded on the target
cell's entry of the enemy matrix exceeds the effective weapon (the grabbed
weapon's tier on the grab branch, the current weapon on the kill branch —
where that entry holds the victim's nonnegative health, so the test never
fires), the planner reports no action for this unit (later qualifying
neighbours are not considered, and the role fallback may still act);
otherwise it proposes moving there at the highest priority. -/
theorem c6_first_no_brainer_decides (env : Env) (origin : Pos) (life weapon : Int)
    (isWarrior : Bool) (numBarricades fuel : Nat) (pre post : List Dir) (d : Dir)
    (hsplit : Directions = pre ++ d :: post)
    (hpre : ∀ e ∈ pre, posOk env (shift origin e) = false ∨
      (noBrainer env (shift origin e) weapon isWarrior).1 = false)
    (hok : posOk env (shift origin d) = true)
    (hnb : (noBrainer env (shift origin d) weapon isWarrior).1 = true) :
    ((noBrainer env (shift origin d) weapon isWarrior).2
        < -env.boardEnemy (shift origin d) →
      (approachTarget env origin life weapon isWarrior numBarricades fuel).1 = none) ∧
    (¬ (noBrainer env (shift origin d) weapon isWarrior).2
        < -env.boardEnemy (shift origin d) →
      (approachTarget env origin life weapon isWarrior numBarricades fuel).1
        = some (VERY_HIGH_PRIORITY, d)) := by
  obtain ⟨s2, heq⟩ := fastLoop_reaches env origin weapon isWarrior pre (d :: post)
    (initState origin) hpre
  rw [fastLoop_hit env origin weapon isWarrior d post s2 hok hnb] at heq
  constructor
  · intro hdanger
    rw [if_pos hdanger] at heq
    unfold approachTarget
    rw [hsplit, heq]
  · intro hdanger
    rw [if_neg hdanger] at heq
    unfold approachTarget
    rw [hsplit, heq]

/-- Environment falsifying C6 as stated: at night, a hammer warrior at
(1,1) with an enemy builder of 5 health at (0,1) (a no-brainer kill), while
an enemy with a bazooka (tier 6, strictly stronger than the unit) stands at
(0,0), adjacent to the kill target.  The matrices are as `build_board`
produces them: the enemy-occupied cells hold lives, their neighbours hold
the strongest adjacent tier. -/
def env6 : Env :=
  ⟨3, 3,
    (fun p => if p = (0, 0) then ENEMY_BAZOOKA
      else if p = (0, 1) then ENEMY_BUILDER
      else if p = (1, 1) then FRIENDLY_CITIZEN else EMPTY),
    (fun p => if p = (0, 0) then 44
      else if p = (0, 1) then 5
      else if p = (1, 0) then -6
      else if p = (0, 2) then -3
      else if p = (1, 1) then -3 else 0),
    (fun _ => 0),
    (fun _ => defaultBonus), (fun _ => defaultBonus),
    10, (fun _ => false),
    10, 50, 50,
    1, 2, 5, 10,
    100, 5,
    (fun p => if p = (0, 0) then 44 else if p = (0, 1) then 5 else 30),
    (fun _ => false), (fun _ => BUILDER)⟩

/-- C6 counterexample.  The claim says the fast-path kill is suppressed
(the unit holds position, no action issued) when moving there would expose
the unit to a stronger adjacent threat.  In `env6` the kill target (0,1) is
adjacent to a bazooka enemy of tier 6 > 4; yet the planner proposes the
kill move at top priority, because the exposure test reads the target
cell's enemy-matrix entry, which at an enemy-occupied cell holds the
victim's health (5), not the adjacent threat. -/
theorem c6_counterexample :
    (approachTarget env6 (1, 1) 40 HAMMER true 0 99).1
        = some (VERY_HIGH_PRIORITY, Dir.Up) ∧
      shift (1, 1) Dir.Up = (0, 1) ∧
      env6.board (0, 0) = ENEMY_BAZOOKA ∧
      (0, 0) ∈ neighbors (0, 1) ∧
      HAMMER < -ENEMY_BAZOOKA := by
  refine ⟨rfl, rfl, rfl, ?_, by decide⟩
  simp [neighbors]

/-- Environment for the C6 witness: a hammer warrior at (1,1), a gun on the
ground at (0,1) whose cell is adjacent to an enemy bazooka at (0,0); the
grab branch fires first and its guard (tier 6 > grabbed tier 5) blocks it. -/
def env6w : Env :=
  ⟨3, 3,
    (fun p => if p = (0, 0) then ENEMY_BAZOOKA
      else if p = (0, 1) then GUN
      else if p = (1, 1) then FRIENDLY_CITIZEN else EMPTY),
    (fun p => if p = (0, 0) then 44
      else if p = (0, 1) then -6
      else if p = (1, 0) then -6 else 0),
    (fun _ => 0),
    (fun p => if p = (0, 1) then ⟨'W', 2, false⟩ else defaultBonus),
    (fun _ => defaultBonus),
    10, (fun _ => false),
    10, 50, 50,
    1, 2, 5, 10,
    100, 5,
    (fun p => if p = (0, 0) then 44 else 30),
    (fun _ => false), (fun _ => BUILDER)⟩

/-- C6 witness: the amended fast-path statement applied to `env6w`, where
Up is the first (and only) qualifying neighbour. -/
theorem c6_first_no_brainer_decides_witness :
    ((noBrainer env6w (shift (1, 1) Dir.Up) HAMMER true).2
        < -env6w.boardEnemy (shift (1, 1) Dir.Up) →
      (approachTarget env6w (1, 1) 40 HAMMER true 0 99).1 = none) ∧
    (¬ (noBrainer env6w (shift (1, 1) Dir.Up) HAMMER true).2
        < -env6w.boardEnemy (shift (1, 1) Dir.Up) →
      (approachTarget env6w (1, 1) 40 HAMMER true 0 99).1
        = some (VERY_HIGH_PRIORITY, Dir.Up)) :=
  c6_first_no_brainer_decides env6w (1, 1) 40 HAMMER true 0 99 []
    [Dir.Down, Dir.Left, Dir.Right] Dir.Up rfl (by simp) (by decide) (by decide)

/-! ### Claim C8: the kill fast path does not require a combatant. -/

/-- C8: for a non-combatant builder (weapon code `BUILDER`), a first-in-scan
neighbour holding an enemy of equal-or-weaker tier, with health within one
guaranteed hit, at night and not inside a barricade, makes the planner
propose moving onto that enemy's cell at top priority — the branch never
tests the unit's role.  The guard of line 448 cannot fire here because the
target cell's enemy-matrix entry is the victim's nonnegative health. -/
theorem c8_builder_kill_fast_path (env : Env) (origin : Pos) (life : Int)
    (numBarricades fuel : Nat) (pre post : List Dir) (d : Dir)
    (hsplit : Directions = pre ++ d :: post)
    (hpre : ∀ e ∈ pre, posOk env (shift origin e) = false ∨
      (noBrainer env (shift origin e) BUILDER false).1 = false)
    (hok : posOk env (shift origin d) = true)
    (hkill : env.board (shift origin d) ≤ ENEMY_BUILDER ∧
      -env.board (shift origin d) ≤ BUILDER ∧ isNight env = true ∧
      env.boardEnemy (shift origin d) ≤ env.lifeLostInAttack ∧
      env.boardBarricades (shift origin d) = 0)
    (hlife : 0 ≤ env.boardEnemy (shift origin d)) :
    (approachTarget env origin life BUILDER false numBarricades fuel).1
      = some (VERY_HIGH_PRIORITY, d) := by
  have hnbeq : noBrainer env (shift origin d) BUILDER false = (true, BUILDER) := by
    unfold noBrainer
    rw [if_pos hkill]
  obtain ⟨s2, heq⟩ := fastLoop_reaches env origin BUILDER false pre (d :: post)
    (initState origin) hpre
  rw [fastLoop_hit env origin BUILDER false d post s2 hok (by rw [hnbeq])] at heq
  rw [if_neg (show ¬ (noBrainer env (shift origin d) BUILDER false).2
      < -env.boardEnemy (shift origin d) by
    rw [hnbeq]
    show ¬ BUILDER < -env.boardEnemy (shift origin d)
    simp only [BUILDER]
    omega)] at heq
  unfold approachTarget
  rw [hsplit, heq]

/-- Environment for the C8 witness: a builder at (1,1), an enemy builder
with 5 health at (0,1), night, one-hit damage 10. -/
def env8 : Env :=
  ⟨3, 3,
    (fun p => if p = (0, 1) then ENEMY_BUILDER
      else if p = (1, 1) then FRIENDLY_CITIZEN else EMPTY),
    (fun p => if p = (0, 1) then 5
      else if p = (0, 0) then -3
      else if p = (0, 2) then -3
      else if p = (1, 1) then -3 else 0),
    (fun _ => 0),
    (fun _ => defaultBonus), (fun _ => defaultBonus),
    10, (fun _ => false),
    10, 50, 50,
    1, 2, 5, 10,
    100, 5,
    (fun p => if p = (0, 1) then 5 else 30),
    (fun _ => false), (fun _ => BUILDER)⟩

/-- C8 witness: the builder kill fast path applied to `env8`. -/
theorem c8_builder_kill_fast_path_witness :
    (approachTarget env8 (1, 1) 40 BUILDER false 0 99).1
      = some (VERY_HIGH_PRIORITY, Dir.Up) :=
  c8_builder_kill_fast_path env8 (1, 1) 40 0 99 [] [Dir.Down, Dir.Left, Dir.Right]
    Dir.Up rfl (by simp) (by decide) (by decide) (by decide)

/-! ### Claim C9: the weapon-grab guard compares the grabbed weapon. -/

/-- C9: on the weapon-grab fast path the exposure guard compares the
strongest enemy adjacent to the weapon cell against the tier of the weapon
BEING GRABBED, not the currently held one: a warrior adjacent to a strictly
better weapon steps onto it even when that cell is adjacent to an enemy
stronger than its current weapon, as long as the enemy's tier does not
strictly exceed the new weapon's tier. -/
theorem c9_grab_guard_uses_new_weapon (env : Env) (origin : Pos) (life weapon : Int)
    (numBarricades fuel : Nat) (pre post : List Dir) (d : Dir)
    (hsplit : Directions = pre ++ d :: post)
    (hpre : ∀ e ∈ pre, posOk env (shift origin e) = false ∨
      (noBrainer env (shift origin e) weapon true).1 = false)
    (hok : posOk env (shift origin d) = true)
    (hw : BUILDER ≤ weapon)
    (hgrab : weapon < env.board (shift origin d))
    (hcur : weapon < -env.boardEnemy (shift origin d))
    (hnew : -env.boardEnemy (shift origin d) ≤ env.board (shift origin d)) :
    (approachTarget env origin life weapon true numBarricades fuel).1
      = some (VERY_HIGH_PRIORITY, d) := by
  have hnbeq : noBrainer env (shift origin d) weapon true
      = (true, env.board (shift origin d)) := by
    unfold noBrainer
    rw [if_neg (show ¬ (env.board (shift origin d) ≤ ENEMY_BUILDER ∧
        -env.board (shift origin d) ≤ weapon ∧ isNight env = true ∧
        env.boardEnemy (shift origin d) ≤ env.lifeLostInAttack ∧
        env.boardBarricades (shift origin d) = 0) by
      intro hc
      have h := hc.1
      simp only [ENEMY_BUILDER] at h
      simp only [BUILDER] at hw
      omega)]
    rw [if_pos ⟨rfl, hgrab⟩]
  obtain ⟨s2, heq⟩ := fastLoop_reaches env origin weapon true pre (d :: post)
    (initState origin) hpre
  rw [fastLoop_hit env origin weapon true d post s2 hok (by rw [hnbeq])] at heq
  rw [if_neg (show ¬ (noBrainer env (shift origin d) weapon true).2
      < -env.boardEnemy (shift origin d) by
    rw [hnbeq]
    show ¬ env.board (shift origin d) < -env.boardEnemy (shift origin d)
    omega)] at heq
  unfold approachTarget
  rw [hsplit, heq]

/-- C9 witness: `env1` realises exactly the claim's scenario (hammer
warrior, adjacent gun, gun-armed enemy adjacent to the weapon cell). -/
theorem c9_grab_guard_uses_new_weapon_witness :
    (approachTarget env1 (1, 1) 40 HAMMER true 0 99).1
      = some (VERY_HIGH_PRIORITY, Dir.Right) :=
  c9_grab_guard_uses_new_weapon env1 (1, 1) 40 HAMMER 0 99 [Dir.Up, Dir.Down, Dir.Left]
    [] Dir.Right rfl (by decide) (by decide) (by decide) (by decide) (by decide)
    (by decide)

/-! ### Claim C4: the contested-money suppression rule. -/

/-- C4 counterexample.  The claim forces the profit to zero whenever a
different (here foreign) unit is closer to the currency than the evaluating
unit and was already closer last round.  With the unit at distance 5 and
the recorded contender at distance 3 both this round and last round, both
of the claim's conditions hold (3 < 5 now, 3 < 5 last round), yet the code
keeps the profit at `MONEY_PROFIT - 5 = 7`: it zeroes only when the
contender's recorded distance DECREASED since last round (3 < 3 fails). -/
theorem c4_counterexample :
    moneyProfit 5 3 3 = 7 ∧ (3 : Int) < 5 ∧ (7 : Int) ≠ 0 := by
  refine ⟨by decide, by decide, by decide⟩

/-- C4 (amended): at a money cell the planner's candidate profit is
`moneyProfit`: the fixed currency value minus the path distance, forced to
zero exactly when that difference is positive, the recorded closest
distance is strictly below the evaluating unit's distance, AND strictly
below the previous round's recorded closest distance (the contender is
actively approaching); the candidate replaces the best target exactly when
it beats the current best profit. -/
theorem c4_money_profit (env : Env) (life weapon : Int) (isWarrior needHealB : Bool)
    (u : Pos) (dir : Dir) (s : SState)
    (hmoney : env.board u = MONEY) :
    (evalCell env life weapon isWarrior needHealB u dir s =
      (if moneyProfit ((s.dist u : Int)) (env.bonusDist u).closest_dist
          (env.bonusDistPrev u).closest_dist > s.bestProfit then
        { s with
          bestProfit := moneyProfit ((s.dist u : Int)) (env.bonusDist u).closest_dist
            (env.bonusDistPrev u).closest_dist,
          bestDir := dir,
          takeOwn := none }
      else s, false)) ∧
    (MONEY_PROFIT - (s.dist u : Int) > 0 ∧
        (env.bonusDist u).closest_dist < (s.dist u : Int) ∧
        (env.bonusDist u).closest_dist < (env.bonusDistPrev u).closest_dist →
      moneyProfit ((s.dist u : Int)) (env.bonusDist u).closest_dist
        (env.bonusDistPrev u).closest_dist = 0) ∧
    (¬ (MONEY_PROFIT - (s.dist u : Int) > 0 ∧
        (env.bonusDist u).closest_dist < (s.dist u : Int) ∧
        (env.bonusDist u).closest_dist < (env.bonusDistPrev u).closest_dist) →
      moneyProfit ((s.dist u : Int)) (env.bonusDist u).closest_dist
        (env.bonusDistPrev u).closest_dist = MONEY_PROFIT - (s.dist u : Int)) := by
  refine ⟨?_, ?_, ?_⟩
  · unfold evalCell
    dsimp only
    by_cases h1 : isWarrior = true ∧ env.board u ≤ ENEMY_BUILDER
        ∧ isStronger env life weapon u = true
        ∧ env.dayAt (env.roundNum + s.dist u) = false
    · exfalso
      have h := h1.2.1
      rw [hmoney] at h
      exact absurd h (by decide)
    · rw [if_neg h1, if_pos hmoney]
      split_ifs <;> rfl
  · intro hc
    unfold moneyProfit
    rw [if_pos hc]
  · intro hc
    unfold moneyProfit
    rw [if_neg hc]

/-- Environment for the C4 witness: a money bonus at (0,1), recorded
contender (foreign) at distance 3 this round and distance 4 last round. -/
def env4 : Env :=
  ⟨3, 3,
    (fun p => if p = (0, 1) then MONEY
      else if p = (1, 1) then FRIENDLY_CITIZEN else EMPTY),
    (fun _ => 0), (fun _ => 0),
    (fun p => if p = (0, 1) then ⟨'M', 3, false⟩ else defaultBonus),
    (fun p => if p = (0, 1) then ⟨'M', 4, false⟩ else defaultBonus),
    10, (fun _ => true),
    10, 50, 50,
    1, 2, 5, 10,
    100, 5,
    (fun _ => 30), (fun _ => false), (fun _ => BUILDER)⟩

/-- A concrete mid-search state for the C4 and C10 witnesses: every cell at
recorded distance 5, nothing visited, empty queue, no candidate yet. -/
def s4 : SState :=
  ⟨fun _ => 5, fun _ => false, [], INT_MIN, Dir.Left, none, 0⟩

/-- C4 witness: the money-branch characterisation applied to `env4` at the
money cell (0,1) with the unit's distance 5. -/
theorem c4_money_profit_witness :
    (evalCell env4 40 BUILDER false false (0, 1) Dir.Up s4 =
      (if moneyProfit ((s4.dist (0, 1) : Int)) (env4.bonusDist (0, 1)).closest_dist
          (env4.bonusDistPrev (0, 1)).closest_dist > s4.bestProfit then
        { s4 with
          bestProfit := moneyProfit ((s4.dist (0, 1) : Int))
            (env4.bonusDist (0, 1)).closest_dist
            (env4.bonusDistPrev (0, 1)).closest_dist,
          bestDir := Dir.Up,
          takeOwn := none }
      else s4, false)) ∧
    (MONEY_PROFIT - (s4.dist (0, 1) : Int) > 0 ∧
        (env4.bonusDist (0, 1)).closest_dist < (s4.dist (0, 1) : Int) ∧
        (env4.bonusDist (0, 1)).closest_dist < (env4.bonusDistPrev (0, 1)).closest_dist →
      moneyProfit ((s4.dist (0, 1) : Int)) (env4.bonusDist (0, 1)).closest_dist
        (env4.bonusDistPrev (0, 1)).closest_dist = 0) ∧
    (¬ (MONEY_PROFIT - (s4.dist (0, 1) : Int) > 0 ∧
        (env4.bonusDist (0, 1)).closest_dist < (s4.dist (0, 1) : Int) ∧
        (env4.bonusDist (0, 1)).closest_dist < (env4.bonusDistPrev (0, 1)).closest_dist) →
      moneyProfit ((s4.dist (0, 1) : Int)) (env4.bonusDist (0, 1)).closest_dist
        (env4.bonusDistPrev (0, 1)).closest_dist = MONEY_PROFIT - (s4.dist (0, 1) : Int)) :=
  c4_money_profit env4 40 BUILDER false false (0, 1) Dir.Up s4 (by decide)

/-! ### Claim C10: weapons with a default bonus record are never
considered. -/

/-- C10: when the bonus-proximity search left a weapon cell's record at its
default (closest distance 0), the planner's weapon branch guard
`closest_dist >= distance` fails at any cell reached with distance at least
1, so the cell contributes no profit candidate, no teammate-avoidance
distance penalty, and no ownership claim: the evaluation step leaves the
whole search state unchanged (and does not stop the expansion).  Moreover
the seeding cost of a barricade-free weapon cell is exactly the base move
cost 1, so recorded distances to it are indeed at least 1. -/
theorem c10_default_weapon_ignored (env : Env) (life weapon : Int)
    (isWarrior needHealB : Bool) (u : Pos) (dir : Dir) (s : SState)
    (hgun : GUN ≤ env.board u)
    (hdef : (env.bonusDist u).closest_dist = 0)
    (hd : 1 ≤ s.dist u) :
    evalCell env life weapon isWarrior needHealB u dir s = (s, false) ∧
    (0 ≤ env.boardBarricades u → addMovementPenalties env u 1 weapon = 1) := by
  constructor
  · unfold evalCell
    dsimp only
    by_cases h1 : isWarrior = true ∧ env.board u ≤ ENEMY_BUILDER
        ∧ isStronger env life weapon u = true
        ∧ env.dayAt (env.roundNum + s.dist u) = false
    · exfalso
      have h := h1.2.1
      simp only [ENEMY_BUILDER] at h
      simp only [GUN] at hgun
      omega
    · rw [if_neg h1]
      by_cases h2 : env.board u = MONEY
      · exfalso
        rw [h2] at hgun
        exact absurd hgun (by decide)
      · rw [if_neg h2]
        by_cases h3 : needHealB = true ∧ env.board u = FOOD
        · exfalso
          rw [h3.2] at hgun
          exact absurd hgun (by decide)
        · rw [if_neg h3]
          by_cases h4 : env.board u ≥ GUN ∧ (env.bonusDist u).closest_dist ≥ (s.dist u : Int)
          · exfalso
            have h := h4.2
            rw [hdef] at h
            omega
          · rw [if_neg h4]
  · intro hbar
    unfold addMovementPenalties
    dsimp only
    rw [if_neg (show ¬ env.boardBarricades u < 0 by omega)]
    rw [if_neg (show ¬ env.board u ≤ ENEMY_BUILDER by
      simp only [ENEMY_BUILDER]
      simp only [GUN] at hgun
      omega)]
    rw [if_neg (show ¬ env.board u = FRIENDLY_CITIZEN by
      intro hc
      rw [hc] at hgun
      exact absurd hgun (by decide))]

/-- Environment for the C10 witness: a gun at (0,1) whose bonus record kept
its default (no entitled unit was found). -/
def env10 : Env :=
  ⟨3, 3,
    (fun p => if p = (0, 1) then GUN
      else if p = (1, 1) then FRIENDLY_CITIZEN else EMPTY),
    (fun _ => 0), (fun _ => 0),
    (fun _ => defaultBonus), (fun _ => defaultBonus),
    10, (fun _ => true),
    10, 50, 50,
    1, 2, 5, 10,
    100, 5,
    (fun _ => 30), (fun _ => false), (fun _ => BUILDER)⟩

/-- C10 witness: the no-effect statement applied to `env10` at the gun cell
(0,1), reached at distance 5 by a hammer warrior. -/
theorem c10_default_weapon_ignored_witness :
    evalCell env10 40 HAMMER true false (0, 1) Dir.Up s4 = (s4, false) ∧
      (0 ≤ env10.boardBarricades (0, 1) →
        addMovementPenalties env10 (0, 1) 1 HAMMER = 1) :=
  c10_default_weapon_ignored env10 40 HAMMER true false (0, 1) Dir.Up s4
    (by decide) (by decide) (by decide)

/-! ### Claim C7: the builder's day fallback. -/

/-- C7: for a builder whose planner call reports no action on a day round,
the fallback first improves an adjacent improvable own barricade at the
fixed low build priority; otherwise, when the quota is met it does nothing;
when the quota is unmet it proposes a new structure on an adjacent empty,
barricade-free cell with no enemy presence or threat if one exists, else on
any adjacent empty barricade-free cell, incrementing the structure counter;
and with no such cell it does nothing. -/
theorem c7_builder_day_fallback (env : Env) (id : Int) (origin : Pos) (life : Int)
    (numBarricades fuel : Nat)
    (hday : isDay env = true)
    (hnone : (approachTarget env origin life BUILDER false numBarricades fuel).1 = none) :
    ((∃ e ∈ Directions, improvableDir env origin e = true) →
      ∃ e, improvableDir env origin e = true ∧
        builderDayTask env id origin life numBarricades fuel =
          (some ⟨BUILD_PRIORITY, true, id, e⟩, numBarricades)) ∧
    ((∀ e ∈ Directions, ¬ improvableDir env origin e = true) →
      env.maxNumBarricades ≤ numBarricades →
      builderDayTask env id origin life numBarricades fuel = (none, numBarricades)) ∧
    ((∀ e ∈ Directions, ¬ improvableDir env origin e = true) →
      numBarricades < env.maxNumBarricades →
      (∃ e ∈ Directions, emptySafeDir env origin e = true) →
      ∃ e, emptySafeDir env origin e = true ∧
        builderDayTask env id origin life numBarricades fuel =
          (some ⟨BUILD_PRIORITY, true, id, e⟩, numBarricades + 1)) ∧
    ((∀ e ∈ Directions, ¬ improvableDir env origin e = true) →
      numBarricades < env.maxNumBarricades →
      (∀ e ∈ Directions, ¬ emptySafeDir env origin e = true) →
      (∃ e ∈ Directions, emptyFreeDir env origin e = true) →
      ∃ e, emptyFreeDir env origin e = true ∧
        builderDayTask env id origin life numBarricades fuel =
          (some ⟨BUILD_PRIORITY, true, id, e⟩, numBarricades + 1)) ∧
    ((∀ e ∈ Directions, ¬ improvableDir env origin e = true) →
      numBarricades < env.maxNumBarricades →
      (∀ e ∈ Directions, ¬ emptyFreeDir env origin e = true) →
      builderDayTask env id origin life numBarricades fuel = (none, numBarricades)) := by
  refine ⟨?_, ?_, ?_, ?_, ?_⟩
  · rintro ⟨e0, he0m, he0⟩
    cases hfind : Directions.find? (improvableDir env origin) with
    | none =>
      exact absurd he0 ((List.find?_eq_none.mp hfind) e0 he0m)
    | some e1 =>
      refine ⟨e1, List.find?_some hfind, ?_⟩
      unfold builderDayTask
      rw [hnone, hfind]
  · intro hno hquota
    have hfind : Directions.find? (improvableDir env origin) = none :=
      List.find?_eq_none.mpr hno
    unfold builderDayTask
    rw [hnone, hfind, if_pos hquota]
  · rintro hno hq ⟨e0, he0m, he0⟩
    have hfind : Directions.find? (improvableDir env origin) = none :=
      List.find?_eq_none.mpr hno
    cases hfind2 : Directions.find? (emptySafeDir env origin) with
    | none =>
      exact absurd he0 ((List.find?_eq_none.mp hfind2) e0 he0m)
    | some e1 =>
      refine ⟨e1, List.find?_some hfind2, ?_⟩
      unfold builderDayTask
      rw [hnone, hfind, if_neg (not_le.mpr hq), hfind2]
  · rintro hno hq hnosafe ⟨e0, he0m, he0⟩
    have hfind : Directions.find? (improvableDir env origin) = none :=
      List.find?_eq_none.mpr hno
    have hfind2 : Directions.find? (emptySafeDir env origin) = none :=
      List.find?_eq_none.mpr hnosafe
    cases hfind3 : Directions.find? (emptyFreeDir env origin) with
    | none =>
      exact absurd he0 ((List.find?_eq_none.mp hfind3) e0 he0m)
    | some e1 =>
      refine ⟨e1, List.find?_some hfind3, ?_⟩
      unfold builderDayTask
      rw [hnone, hfind, if_neg (not_le.mpr hq), hfind2, hfind3]
  · intro hno hq hnofree
    have hnosafe : ∀ e ∈ Directions, ¬ emptySafeDir env origin e = true := by
      intro e he hcon
      apply hnofree e he
      unfold emptySafeDir at hcon
      unfold emptyFreeDir
      simp only [Bool.and_eq_true, decide_eq_true_eq] at hcon ⊢
      exact ⟨hcon.1.1, hcon.2⟩
    have hfind : Directions.find? (improvableDir env origin) = none :=
      List.find?_eq_none.mpr hno
    have hfind2 : Directions.find? (emptySafeDir env origin) = none :=
      List.find?_eq_none.mpr hnosafe
    have hfind3 : Directions.find? (emptyFreeDir env origin) = none :=
      List.find?_eq_none.mpr hnofree
    unfold builderDayTask
    rw [hnone, hfind, if_neg (not_le.mpr hq), hfind2, hfind3]

/-- Environment for the C7 witness: a lone builder at (0,0) on an otherwise
empty 2 x 2 board, by day, with quota 5 and no barricades: the planner
finds nothing, and the fallback builds on the first free direction. -/
def env7 : Env :=
  ⟨2, 2,
    (fun p => if p = (0, 0) then FRIENDLY_CITIZEN else EMPTY),
    (fun _ => 0), (fun _ => 0),
    (fun _ => defaultBonus), (fun _ => defaultBonus),
    4, (fun _ => true),
    10, 50, 50,
    1, 2, 5, 10,
    100, 5,
    (fun _ => 50), (fun _ => false), (fun _ => BUILDER)⟩

/-- C7 witness: the fallback characterisation applied to `env7` (the
planner call concretely reports no action there). -/
theorem c7_builder_day_fallback_witness :
    ((∃ e ∈ Directions, improvableDir env7 (0, 0) e = true) →
      ∃ e, improvableDir env7 (0, 0) e = true ∧
        builderDayTask env7 7 (0, 0) 50 0 99 = (some ⟨BUILD_PRIORITY, true, 7, e⟩, 0)) ∧
    ((∀ e ∈ Directions, ¬ improvableDir env7 (0, 0) e = true) →
      env7.maxNumBarricades ≤ 0 →
      builderDayTask env7 7 (0, 0) 50 0 99 = (none, 0)) ∧
    ((∀ e ∈ Directions, ¬ improvableDir env7 (0, 0) e = true) →
      0 < env7.maxNumBarricades →
      (∃ e ∈ Directions, emptySafeDir env7 (0, 0) e = true) →
      ∃ e, emptySafeDir env7 (0, 0) e = true ∧
        builderDayTask env7 7 (0, 0) 50 0 99 = (some ⟨BUILD_PRIORITY, true, 7, e⟩, 0 + 1)) ∧
    ((∀ e ∈ Directions, ¬ improvableDir env7 (0, 0) e = true) →
      0 < env7.maxNumBarricades →
      (∀ e ∈ Directions, ¬ emptySafeDir env7 (0, 0) e = true) →
      (∃ e ∈ Directions, emptyFreeDir env7 (0, 0) e = true) →
      ∃ e, emptyFreeDir env7 (0, 0) e = true ∧
        builderDayTask env7 7 (0, 0) 50 0 99 = (some ⟨BUILD_PRIORITY, true, 7, e⟩, 0 + 1)) ∧
    ((∀ e ∈ Directions, ¬ improvableDir env7 (0, 0) e = true) →
      0 < env7.maxNumBarricades →
      (∀ e ∈ Directions, ¬ emptyFreeDir env7 (0, 0) e = true) →
      builderDayTask env7 7 (0, 0) 50 0 99 = (none, 0)) :=
  c7_builder_day_fallback env7 7 (0, 0) 50 0 99 (by decide) (by decide)
